import Mathlib

/-
  Verification of the configuration-resolution core of honeycombio/otel-config-go.

  Go strings are embedded as lists of characters (GoStr); all the byte-level Go
  string operations used by the source (strings.Index, strings.HasPrefix,
  strings.TrimPrefix) are colon/ASCII based, so the character-level model agrees
  with the byte-level original on every input.  Go maps are embedded as
  association lists with a replace-or-append insertion (goMapSet); map iteration
  order, which Go leaves unspecified, only ever feeds later-wins insertions whose
  lookup-level result is order independent for duplicate-free key sets, and the
  theorems below are stated at the lookup level.
-/

namespace OtelConfig

/-- Go strings, embedded character by character. -/
abbrev GoStr := List Char

/-- Abbreviation turning a Lean string literal into its Go-string embedding. -/
def gs (s : String) : GoStr := s.toList

/-- Go strings.HasPrefix: does the second string start with the first? -/
def goHasPref : GoStr → GoStr → Bool
  | [], _ => true
  | _ :: _, [] => false
  | p :: ps, c :: cs => p = c && goHasPref ps cs

/-- Go strings.TrimPrefix: remove the first string from the front of the second
when present, otherwise return the second unchanged. -/
def goTrimPref (p s : GoStr) : GoStr :=
  if goHasPref p s then s.drop p.length else s

/-- Association-list embedding of a Go map assignment m[k] = v: replace the
binding when the key is present, append it otherwise. -/
def goMapSet (m : List (GoStr × GoStr)) (k v : GoStr) : List (GoStr × GoStr) :=
  if m.any (fun p => p.1 = k) then
    m.map (fun p => if p.1 = k then (k, v) else p)
  else m ++ [(k, v)]

/-- Association-list lookup (first binding wins, as in a duplicate-free map). -/
def goLookup (m : List (GoStr × GoStr)) (k : GoStr) : Option GoStr :=
  match m with
  | [] => none
  | p :: rest => if p.1 = k then some p.2 else goLookup rest k

/-- First-some choice on options. -/
def orElseO (x y : Option GoStr) : Option GoStr :=
  match x with
  | some v => some v
  | none => y

/-- GRPC default port (source constant GRPCDefaultPort). -/
def GRPCDefaultPort : GoStr := gs "4317"

/-- HTTP default port (source constant HTTPDefaultPort). -/
def HTTPDefaultPort : GoStr := gs "4318"

/-- SSL/TLS default port (source constant SSLDefaultPort). -/
def SSLDefaultPort : GoStr := gs "443"

/-- Protocol value "grpc". -/
def ProtocolGRPC : GoStr := gs "grpc"

/-- Protocol value "http/protobuf". -/
def ProtocolHTTPProto : GoStr := gs "http/protobuf"

/-- Protocol value "http/json". -/
def ProtocolHTTPJSON : GoStr := gs "http/json"

/-- Go strings.Index specialised to a one-character pattern: the index of the
first occurrence, none standing for the -1 of the original. -/
def goIndexColon : GoStr → Option Nat
  | [] => none
  | c :: cs => if c = ':' then some 0 else (goIndexColon cs).map (fun i => i + 1)

/-- ensurePort from otelconfig.go: ensures that a port is set on the given host
string, or adds the default port.  strings.Index finds the first colon; the
colon being the final character means "trailing colon, append the digits only". -/
def ensurePort (host defaultPort : GoStr) : GoStr :=
  match goIndexColon host with
  | none => host ++ [':'] ++ defaultPort
  | some ix => if ix = host.length - 1 then host ++ defaultPort else host

/-- Split a string at its last colon, returning the parts before and after it,
or none when it has no colon.  Used to model the last-colon splitting done by
net/url splitHostPort and net.SplitHostPort. -/
def splitLastColon : GoStr → Option (GoStr × GoStr)
  | [] => none
  | c :: cs =>
    match splitLastColon cs with
    | some p => some (c :: p.1, p.2)
    | none => if c = ':' then some ([], cs) else none

/-- All characters are ASCII digits. -/
def isDigits (s : GoStr) : Bool := s.all (fun c => '0' ≤ c && c ≤ '9')

/-- Character that terminates the authority component of a URL. -/
def isAuthorityEnd (c : Char) : Bool := c = '/' || c = '?' || c = '#'

/-- Is the character an ASCII hex digit (Go ishex). -/
def isHexDigit (c : Char) : Bool :=
  ('0' ≤ c && c ≤ '9') || ('a' ≤ c && c ≤ 'f') || ('A' ≤ c && c ≤ 'F')

/-- Modelled from the Go standard library: the hex value of a digit (Go unhex). -/
def unhex (c : Char) : Nat :=
  if '0' ≤ c && c ≤ '9' then c.toNat - '0'.toNat
  else if 'a' ≤ c && c ≤ 'f' then c.toNat - 'a'.toNat + 10
  else if 'A' ≤ c && c ≤ 'F' then c.toNat - 'A'.toNat + 10
  else 0

/-- Modelled from the Go standard library: the ASCII characters that
shouldEscape(c, encodeHost) leaves unescaped in a host — alphanumerics, the
RFC 3986 unreserved marks "-._~", the sub-delims, and the colon, square
brackets, angle brackets and double quote that net/url additionally admits. -/
def hostASCIIAllowed (c : Char) : Bool :=
  ('a' ≤ c && c ≤ 'z') || ('A' ≤ c && c ≤ 'Z') || ('0' ≤ c && c ≤ '9')
  || c = '-' || c = '_' || c = '.' || c = '~'
  || c = '!' || c = '$' || c = '&' || c = '\'' || c = '(' || c = ')'
  || c = '*' || c = '+' || c = ',' || c = ';' || c = '='
  || c = ':' || c = '[' || c = ']' || c = '<' || c = '>' || c = '"'

/-- Modelled from the Go standard library: the validation pass of
unescape(host, encodeHost) inside parseHost, as a character-at-a-time loop.
The state is none outside an escape, some none right after a '%', and
some (some a) after its first hex digit a.  A '%' must begin a well-formed
escape %XY with X and Y hex digits, and in host mode an escape of an ASCII
byte (first hex digit below 8) other than %25 is an escape error; any other
ASCII character outside the allowed host set is an invalid-host-character
error; characters at code point 0x80 and above pass through. -/
def validHostLoop : GoStr → Option (Option Char) → Bool
  | [], st => st.isNone
  | c :: rest, none =>
    if c = '%' then validHostLoop rest (some none)
    else if c.toNat < 0x80 && !hostASCIIAllowed c then false
    else validHostLoop rest none
  | c :: rest, some none =>
    if isHexDigit c then validHostLoop rest (some (some c)) else false
  | c :: rest, some (some a) =>
    if isHexDigit c then
      if unhex a < 8 && !(a = '2' && c = '5') then false
      else validHostLoop rest none
    else false

/-- Modelled from the Go standard library: unescape(host, encodeHost) succeeds
on the host — every character and percent-escape is legal in a URL host. -/
def validHostChars (s : GoStr) : Bool := validHostLoop s none

/-- Modelled from the Go standard library: the slice of net/url.Parse behaviour
exercised by secureGrpcPort.  For a URL "http(s)://authority..." the authority
(everything after the scheme separator up to the first '/', '?' or '#') is the
Host; an optional ":port" suffix must be all digits (validOptionalPort), and a
non-numeric port is a parse error (none).  The host characters are validated as
parseHost does through unescape in host mode (validHostChars), so a space, a
stray '%', a brace, a pipe or any other ASCII character outside the allowed
host set, as well as a malformed escape or an escape of an ASCII byte other
than %25, is a parse error (none).  Userinfo ('@') and IPv6 brackets lie
outside the modelled fragment and are conservatively mapped to a parse error,
and a well-formed non-ASCII escape is accepted but kept undecoded where Go
would decode it; no theorem below applies the model to such inputs.  A string
without an http(s) scheme has no authority and parses with an empty Host, as Go
does for the scheme-less and opaque URLs that reach url.Parse here. -/
def urlParseHost (s : GoStr) : Option GoStr :=
  let rest :=
    if goHasPref (gs "https://") s then some (s.drop 8)
    else if goHasPref (gs "http://") s then some (s.drop 7)
    else none
  match rest with
  | none => some []
  | some r =>
    let auth := r.takeWhile (fun c => !isAuthorityEnd c)
    if auth.any (fun c => c = '@' || c = '[' || c = ']') then none
    else if !validHostChars auth then none
    else
      match splitLastColon auth with
      | none => some auth
      | some p => if isDigits p.2 then some auth else none

/-- Modelled from the Go standard library: url.URL.Port() on a Host within the
bracket-free fragment — the digits after the last colon, or empty. -/
def urlPort (host : GoStr) : GoStr :=
  match splitLastColon host with
  | none => []
  | some p => if isDigits p.2 then p.2 else []

/-- Modelled from the Go standard library: net.SplitHostPort on a bracket-free
address — split at the last colon; no colon is a missing-port error and a colon
in the host part is a too-many-colons error (none). -/
def netSplitHostPort (hostPort : GoStr) : Option (GoStr × GoStr) :=
  match splitLastColon hostPort with
  | none => none
  | some p => if p.1.any (fun c => c = ':') then none else some p

/-- secureGrpcPort from otelconfig.go: sets default secure port 443 if no port
is provided; used when protocol is grpc and the endpoint is prepended with
https://.  Parse failures return the endpoint unchanged. -/
def secureGrpcPort (endpoint : GoStr) : GoStr :=
  match urlParseHost endpoint with
  | none => endpoint
  | some uHost =>
    if urlPort uHost ≠ [] then
      match netSplitHostPort uHost with
      | none => endpoint
      | some p => p.1 ++ [':'] ++ p.2
    else uHost ++ [':'] ++ SSLDefaultPort

/-- trimHttpScheme from otelconfig.go: trim the http scheme from an endpoint for
proper parsing; for grpc with an https:// scheme, first infer the secure port. -/
def trimHttpScheme (url : GoStr) (protocol : GoStr) : GoStr :=
  if goHasPref (gs "https://") url then
    let url1 := if protocol = ProtocolGRPC then secureGrpcPort url else url
    goTrimPref (gs "https://") url1
  else if goHasPref (gs "http://") url then
    goTrimPref (gs "http://") url
  else url

/-- The Config record from otelconfig.go, restricted to the fields the claims
are about (Logger, error handler, sampler, span processors, resource options and
shutdown functions are opaque collaborator values that no claim inspects). -/
structure Config where
  ExporterEndpoint : GoStr := []
  ExporterEndpointInsecure : Bool := false
  TracesExporterEndpoint : GoStr := []
  TracesExporterEndpointInsecure : Bool := false
  TracesEnabled : Option Bool := none
  ServiceName : GoStr := []
  ServiceVersion : GoStr := []
  MetricsExporterEndpoint : GoStr := []
  MetricsExporterEndpointInsecure : Bool := false
  MetricsEnabled : Option Bool := none
  MetricsReportingPeriod : GoStr := []
  LogLevel : GoStr := []
  Propagators : List GoStr := []
  ExporterProtocol : GoStr := []
  TracesExporterProtocol : GoStr := []
  MetricsExporterProtocol : GoStr := []
  Headers : List (GoStr × GoStr) := []
  TracesHeaders : List (GoStr × GoStr) := []
  MetricsHeaders : List (GoStr × GoStr) := []
  ResourceAttributes : List (GoStr × GoStr) := []
  deriving DecidableEq, Repr

/-- getTracesEndpoint from otelconfig.go.  The Go method mutates its receiver
(writing resolved fallback values into the signal-specific fields); the model
threads the updated record explicitly and returns it next to the
(endpoint, insecure) result. -/
def Config.getTracesEndpoint (c : Config) : (GoStr × Bool) × Config :=
  if c.TracesExporterEndpoint = [] ∧ c.ExporterEndpoint = [] then (([], false), c)
  else
    let c1 := if c.TracesExporterEndpoint = [] then
      { c with TracesExporterEndpoint := c.ExporterEndpoint,
               TracesExporterEndpointInsecure := c.ExporterEndpointInsecure } else c
    let c2 := if c1.TracesExporterProtocol = [] then
      { c1 with TracesExporterProtocol := c1.ExporterProtocol } else c1
    let c3 := if c2.TracesExporterProtocol = ProtocolGRPC then
      { c2 with TracesExporterEndpoint := trimHttpScheme c2.TracesExporterEndpoint ProtocolGRPC } else c2
    let port := if c3.TracesExporterProtocol ≠ ProtocolGRPC then HTTPDefaultPort else GRPCDefaultPort
    ((ensurePort c3.TracesExporterEndpoint port, c3.TracesExporterEndpointInsecure), c3)

/-- getMetricsEndpoint from otelconfig.go, the metrics twin of
getTracesEndpoint (the port default is written the other way around in the
source, with the same outcome). -/
def Config.getMetricsEndpoint (c : Config) : (GoStr × Bool) × Config :=
  if c.MetricsExporterEndpoint = [] ∧ c.ExporterEndpoint = [] then (([], false), c)
  else
    let c1 := if c.MetricsExporterEndpoint = [] then
      { c with MetricsExporterEndpoint := c.ExporterEndpoint,
               MetricsExporterEndpointInsecure := c.ExporterEndpointInsecure } else c
    let c2 := if c1.MetricsExporterProtocol = [] then
      { c1 with MetricsExporterProtocol := c1.ExporterProtocol } else c1
    let c3 := if c2.MetricsExporterProtocol = ProtocolGRPC then
      { c2 with MetricsExporterEndpoint := trimHttpScheme c2.MetricsExporterEndpoint ProtocolGRPC } else c2
    let port := if c3.MetricsExporterProtocol = ProtocolGRPC then GRPCDefaultPort else HTTPDefaultPort
    ((ensurePort c3.MetricsExporterEndpoint port, c3.MetricsExporterEndpointInsecure), c3)

/-- Insert every binding of a list into an accumulator map, later bindings
winning; the shape of the header-merging loops in the source. -/
def insertAll (acc : List (GoStr × GoStr)) (l : List (GoStr × GoStr)) :
    List (GoStr × GoStr) :=
  l.foldl (fun m p => goMapSet m p.1 p.2) acc

/-- getTracesHeaders from otelconfig.go: build a fresh map, copy the generic
headers into it, then the traces headers (which therefore win on collision).
The receiver is only read, never written. -/
def Config.getTracesHeaders (c : Config) : List (GoStr × GoStr) :=
  insertAll (insertAll [] c.Headers) c.TracesHeaders

/-- getMetricsHeaders from otelconfig.go: as getTracesHeaders with the
metrics-specific map. -/
def Config.getMetricsHeaders (c : Config) : List (GoStr × GoStr) :=
  insertAll (insertAll [] c.Headers) c.MetricsHeaders

/-- The four propagator implementations known to pipelines/trace.go; the
concrete TextMapPropagator collaborators are opaque, so an enumeration stands
for them. -/
inductive Propagator
  | b3
  | baggage
  | tracecontext
  | ottrace
  deriving DecidableEq, Repr

/-- The propagatorsMap lookup from configurePropagators in pipelines/trace.go;
a Go map lookup yields nil (here none) for unknown keys. -/
def propagatorsMap (key : GoStr) : Option Propagator :=
  if key = gs "b3" then some Propagator.b3
  else if key = gs "baggage" then some Propagator.baggage
  else if key = gs "tracecontext" then some Propagator.tracecontext
  else if key = gs "ottrace" then some Propagator.ottrace
  else none

/-- configurePropagators from pipelines/trace.go: collect the known
implementations for the listed identifiers in order, skipping unknown ones
(nil map lookups); an empty implementation list is the invalid-configuration
error naming the supported set, otherwise the ordered list is composed into the
process-wide propagator (returned here as the ok value). -/
def configurePropagators (propagators : List GoStr) : Except GoStr (List Propagator) :=
  let props := propagators.filterMap propagatorsMap
  if props = [] then
    Except.error (gs "invalid configuration: unsupported propagators. Supported options: b3,baggage,tracecontext,ottrace")
  else Except.ok props

/-- Consume leading decimal digits, returning the accumulated value and the
rest of the string (Go time.leadingInt; the int64 overflow guard is not
modelled — Lean naturals do not overflow). -/
def leadingIntAux : GoStr → Nat → Nat × GoStr
  | [], acc => (acc, [])
  | c :: cs, acc =>
    if '0' ≤ c && c ≤ '9' then leadingIntAux cs (acc * 10 + (c.toNat - '0'.toNat))
    else (acc, c :: cs)

/-- Consume a fractional digit string, returning value, scale and rest
(Go time.leadingFraction; its overflow cutoff is not modelled). -/
def leadingFractionAux : GoStr → Nat → Nat → Nat × Nat × GoStr
  | [], f, scale => (f, scale, [])
  | c :: cs, f, scale =>
    if '0' ≤ c && c ≤ '9' then leadingFractionAux cs (f * 10 + (c.toNat - '0'.toNat)) (scale * 10)
    else (f, scale, c :: cs)

/-- The unit table of Go time.ParseDuration, in nanoseconds. -/
def unitMap (u : GoStr) : Option Nat :=
  if u = gs "ns" then some 1
  else if u = gs "us" then some 1000
  else if u = gs "µs" then some 1000
  else if u = gs "μs" then some 1000
  else if u = gs "ms" then some 1000000
  else if u = gs "s" then some 1000000000
  else if u = gs "m" then some 60000000000
  else if u = gs "h" then some 3600000000000
  else none

/-- One pass of the ParseDuration component loop: number, optional fraction,
unit; recursion is fuelled by the input length (each component consumes at
least its unit character, so the fuel never runs out on reachable inputs).
The float64 truncation Go applies to the fractional contribution is modelled
as exact rational floor. -/
def parseDurationLoop : Nat → GoStr → Option Nat
  | 0, _ => none
  | _ + 1, [] => some 0
  | fuel + 1, c :: cs =>
    if !(c = '.' || ('0' ≤ c && c ≤ '9')) then none
    else
      let s := c :: cs
      let vr := leadingIntAux s 0
      let pre : Bool := vr.2.length != s.length
      let fr :=
        match vr.2 with
        | '.' :: tail =>
          let f3 := leadingFractionAux tail 0 1
          ((f3.1, f3.2.1), f3.2.2, (f3.2.2.length != tail.length : Bool))
        | other => ((0, 1), other, false)
      if !pre && !fr.2.2 then none
      else
        let unitChars := fr.2.1.takeWhile (fun ch => !(ch = '.' || ('0' ≤ ch && ch ≤ '9')))
        if unitChars.length = 0 then none
        else
          match unitMap unitChars with
          | none => none
          | some unit =>
            let v := vr.1 * unit + (fr.1.1 * unit) / fr.1.2
            match parseDurationLoop fuel (fr.2.1.drop unitChars.length) with
            | none => none
            | some rest => some (v + rest)

/-- Modelled from the Go standard library: time.ParseDuration, returning the
duration in nanoseconds, or none on a malformed input ("" , a missing or
unknown unit, a stray character).  The uint64 overflow errors of the original
are not modelled. -/
def goParseDuration (s : GoStr) : Option Int :=
  let signed :=
    match s with
    | '-' :: rest => (true, rest)
    | '+' :: rest => (false, rest)
    | other => (false, other)
  if signed.2 = gs "0" then some 0
  else if signed.2 = [] then none
  else
    match parseDurationLoop (signed.2.length + 1) signed.2 with
    | none => none
    | some d => some (if signed.1 then -(d : Int) else (d : Int))

/-- Quote a string the way Go strconv.Quote renders the escape-free strings that
appear in duration error messages. -/
def goQuote (s : GoStr) : GoStr := '"' :: (s ++ ['"'])

/-- The PipelineConfig record handed from otelconfig.go to pipelines; the
opaque collaborator fields (Resource, Sampler, SpanProcessors) carry no
claim-relevant data and are omitted. -/
structure PipelineConfig where
  Protocol : GoStr := []
  Endpoint : GoStr := []
  Insecure : Bool := false
  Headers : List (GoStr × GoStr) := []
  ReportingPeriod : GoStr := []
  Propagators : List GoStr := []
  deriving DecidableEq, Repr

/-- newTraceExporter from pipelines/trace.go: dispatch on the protocol string;
the grpc and http/protobuf exporter constructors are external collaborators
modelled as succeeding, http/json and unknown protocols are errors. -/
def newTraceExporter (protocol : GoStr) : Except GoStr Unit :=
  if protocol = ProtocolGRPC then Except.ok ()
  else if protocol = ProtocolHTTPProto then Except.ok ()
  else if protocol = ProtocolHTTPJSON then Except.error (gs "http/json is currently unsupported")
  else Except.error (('\'' :: protocol) ++ gs "' is not a supported protocol")

/-- newMetricsExporter from pipelines/metrics.go: same dispatch as the trace
exporter. -/
def newMetricsExporter (protocol : GoStr) : Except GoStr Unit :=
  newTraceExporter protocol

/-- NewTracePipeline from pipelines/trace.go, on the default-span-processor
path the configuration layer always takes: build the exporter (wrapping its
error), configure propagators, register the tracer provider; ok means a
shutdown closure was returned. -/
def NewTracePipeline (c : PipelineConfig) : Except GoStr Unit :=
  match newTraceExporter c.Protocol with
  | Except.error e => Except.error (gs "failed to create span exporter: " ++ e)
  | Except.ok _ =>
    match configurePropagators c.Propagators with
    | Except.error e => Except.error e
    | Except.ok _ => Except.ok ()

/-- NewMetricsPipeline from pipelines/metrics.go: build the exporter (wrapping
its error), then validate the reporting period — a non-empty period that fails
time.ParseDuration, or parses to a non-positive duration, is the
invalid-metric-reporting-period error; the runtime/host metric starters and the
meter provider are external collaborators modelled as succeeding. -/
def NewMetricsPipeline (c : PipelineConfig) : Except GoStr Unit :=
  match newMetricsExporter c.Protocol with
  | Except.error e => Except.error (gs "failed to create metric exporter: " ++ e)
  | Except.ok _ =>
    if c.ReportingPeriod ≠ [] then
      match goParseDuration c.ReportingPeriod with
      | none =>
        Except.error (gs "invalid metric reporting period: time: invalid duration " ++ goQuote c.ReportingPeriod)
      | some period =>
        if period ≤ 0 then
          Except.error (gs "invalid metric reporting period: " ++ c.ReportingPeriod)
        else Except.ok ()
    else Except.ok ()

/-- setupTracing from otelconfig.go: resolve the traces endpoint (with its
record write-back), honour the tri-state enabled flag (nil means enabled),
treat a missing endpoint as tracing disabled (returning no shutdown function
and no error), and otherwise construct the trace pipeline. -/
def setupTracing (c : Config) : Except GoStr (Option Unit) × Config :=
  let r := c.getTracesEndpoint
  let c1 := r.2
  let enabled := c1.TracesEnabled.getD true
  if !enabled then (Except.ok none, c1)
  else if r.1.1 = [] then (Except.ok none, c1)
  else
    match NewTracePipeline { Protocol := c1.TracesExporterProtocol,
                             Endpoint := trimHttpScheme r.1.1 c1.TracesExporterProtocol,
                             Insecure := r.1.2,
                             Headers := c1.getTracesHeaders,
                             ReportingPeriod := [],
                             Propagators := c1.Propagators } with
    | Except.error e => (Except.error e, c1)
    | Except.ok _ => (Except.ok (some ()), c1)

/-- setupMetrics from otelconfig.go: the metrics twin of setupTracing. -/
def setupMetrics (c : Config) : Except GoStr (Option Unit) × Config :=
  let r := c.getMetricsEndpoint
  let c1 := r.2
  let enabled := c1.MetricsEnabled.getD true
  if !enabled then (Except.ok none, c1)
  else if r.1.1 = [] then (Except.ok none, c1)
  else
    match NewMetricsPipeline { Protocol := c1.MetricsExporterProtocol,
                               Endpoint := trimHttpScheme r.1.1 c1.MetricsExporterProtocol,
                               Insecure := r.1.2,
                               Headers := c1.getMetricsHeaders,
                               ReportingPeriod := c1.MetricsReportingPeriod,
                               Propagators := c1.Propagators } with
    | Except.error e => (Except.error e, c1)
    | Except.ok _ => (Except.ok (some ()), c1)

/-- Tags identifying which signal registered a pipeline shutdown callback. -/
inductive Shutdown
  | traces
  | metrics
  deriving DecidableEq, Repr

/-- The setup loop of ConfigureOpenTelemetry in otelconfig.go: run
setupTracing then setupMetrics on the (mutated) record, collecting the non-nil
shutdown callbacks in order; a setup error is wrapped with "setup error: " and
stops the loop, keeping the callbacks registered so far. -/
def configureSetup (c : Config) : List Shutdown × Option GoStr :=
  match setupTracing c with
  | (Except.error e, _) => ([], some (gs "setup error: " ++ e))
  | (Except.ok s1, c1) =>
    let l1 := match s1 with
      | some _ => [Shutdown.traces]
      | none => []
    match setupMetrics c1 with
    | (Except.error e, _) => (l1, some (gs "setup error: " ++ e))
    | (Except.ok s2, _) =>
      (l1 ++ (match s2 with
        | some _ => [Shutdown.metrics]
        | none => []), none)

/-- The process environment restricted to the recognized variables, one
optional raw value per variable (none = unset), in the struct-tag order of
Config. -/
structure Env where
  endpoint : Option GoStr := none
  insecure : Option GoStr := none
  tracesEndpoint : Option GoStr := none
  tracesInsecure : Option GoStr := none
  tracesEnabled : Option GoStr := none
  serviceName : Option GoStr := none
  serviceVersion : Option GoStr := none
  metricsEndpoint : Option GoStr := none
  metricsInsecure : Option GoStr := none
  metricsEnabled : Option GoStr := none
  metricsPeriod : Option GoStr := none
  logLevel : Option GoStr := none
  propagators : Option GoStr := none
  protocol : Option GoStr := none
  tracesProtocol : Option GoStr := none
  metricsProtocol : Option GoStr := none
  headers : Option GoStr := none
  tracesHeaders : Option GoStr := none
  metricsHeaders : Option GoStr := none
  resourceAttributes : Option GoStr := none
  deriving DecidableEq, Repr

/-- Modelled from the Go standard library: strconv.ParseBool, the parser
go-envconfig uses for boolean fields. -/
def goParseBool (s : GoStr) : Option Bool :=
  if s = gs "1" ∨ s = gs "t" ∨ s = gs "T" ∨ s = gs "TRUE" ∨ s = gs "true" ∨ s = gs "True" then some true
  else if s = gs "0" ∨ s = gs "f" ∨ s = gs "F" ∨ s = gs "FALSE" ∨ s = gs "false" ∨ s = gs "False" then some false
  else none

/-- Go strings.Split on a comma: the list of comma-separated pieces (an empty
input yields one empty piece). -/
def goSplitComma : GoStr → List GoStr
  | [] => [[]]
  | c :: cs =>
    match goSplitComma cs with
    | r :: rs => if c = ',' then [] :: r :: rs else (c :: r) :: rs
    | [] => [[c]]

/-- Split a string at the first occurrence of a separator character, or none
when the separator does not occur (Go strings.Cut). -/
def goCut (sep : Char) : GoStr → Option (GoStr × GoStr)
  | [] => none
  | c :: cs =>
    if c = sep then some ([], cs)
    else
      match goCut sep cs with
      | some p => some (c :: p.1, p.2)
      | none => none

/-- go-envconfig map syntax: comma-separated items, each split at the first
'=' (the separator configured by the struct tags); an item without the
separator is a parse error, later items win on key collision. -/
def parseEnvMap (v : GoStr) : Option (List (GoStr × GoStr)) :=
  (goSplitComma v).foldlM
    (fun m item =>
      match goCut '=' item with
      | none => none
      | some p => some (goMapSet m p.1 p.2)) []

/-- An overwrite-tagged string field of Config under envconfig.Process: a set
variable always replaces the current value; an unset variable leaves a non-zero
current value alone and otherwise applies the tag default (empty when the tag
has none). -/
def envStr (envVal : Option GoStr) (defaultVal cur : GoStr) : GoStr :=
  match envVal with
  | some v => v
  | none => if cur = [] then defaultVal else cur

/-- A bool field without the overwrite tag under envconfig.Process: a field
already holding a non-zero value (true) is not processed at all; otherwise a
set variable is parsed (none = malformed value, the environment error) and an
unset variable yields the default (false for every such field here). -/
def envBool (envVal : Option GoStr) (cur : Bool) : Option Bool :=
  if cur then some cur
  else
    match envVal with
    | some v => goParseBool v
    | none => some false

/-- A *bool field without the overwrite tag under envconfig.Process: a non-nil
field is not processed; otherwise a set variable is parsed and an unset one
yields the tag default. -/
def envOptBool (envVal : Option GoStr) (defaultVal : Option Bool) (cur : Option Bool) :
    Option (Option Bool) :=
  match cur with
  | some b => some (some b)
  | none =>
    match envVal with
    | some v => (goParseBool v).map some
    | none => some defaultVal

/-- An overwrite-tagged map field of Config under envconfig.Process. -/
def envMap (envVal : Option GoStr) (cur : List (GoStr × GoStr)) :
    Option (List (GoStr × GoStr)) :=
  match envVal with
  | some v => parseEnvMap v
  | none => some cur

/-- The overwrite-tagged Propagators slice under envconfig.Process, with its
tag default "tracecontext,baggage". -/
def envList (envVal : Option GoStr) (defaultVal : GoStr) (cur : List GoStr) : List GoStr :=
  match envVal with
  | some v => goSplitComma v
  | none => if cur = [] then goSplitComma defaultVal else cur

/-- Modelled from the sethvargo/go-envconfig collaborator: Process applied to
Config with the struct tags of otelconfig.go — every field carries overwrite
except the three insecure booleans and the two enabled tri-states, whose
current non-zero values are kept; tag defaults apply to unset variables on
zero-valued fields.  none models the environment error newConfig returns (which
of several malformed variables is reported first is not modelled). -/
def processEnv (env : Env) (c : Config) : Option Config := do
  let exporterInsecure ← envBool env.insecure c.ExporterEndpointInsecure
  let tracesInsecure ← envBool env.tracesInsecure c.TracesExporterEndpointInsecure
  let tracesEnabled ← envOptBool env.tracesEnabled (some true) c.TracesEnabled
  let metricsInsecure ← envBool env.metricsInsecure c.MetricsExporterEndpointInsecure
  let metricsEnabled ← envOptBool env.metricsEnabled (some true) c.MetricsEnabled
  let headers ← envMap env.headers c.Headers
  let tracesHeaders ← envMap env.tracesHeaders c.TracesHeaders
  let metricsHeaders ← envMap env.metricsHeaders c.MetricsHeaders
  let resourceAttributes ← envMap env.resourceAttributes c.ResourceAttributes
  some { c with
    ExporterEndpoint := envStr env.endpoint [] c.ExporterEndpoint
    ExporterEndpointInsecure := exporterInsecure
    TracesExporterEndpoint := envStr env.tracesEndpoint [] c.TracesExporterEndpoint
    TracesExporterEndpointInsecure := tracesInsecure
    TracesEnabled := tracesEnabled
    ServiceName := envStr env.serviceName [] c.ServiceName
    ServiceVersion := envStr env.serviceVersion (gs "unknown") c.ServiceVersion
    MetricsExporterEndpoint := envStr env.metricsEndpoint [] c.MetricsExporterEndpoint
    MetricsExporterEndpointInsecure := metricsInsecure
    MetricsEnabled := metricsEnabled
    MetricsReportingPeriod := envStr env.metricsPeriod (gs "30s") c.MetricsReportingPeriod
    LogLevel := envStr env.logLevel (gs "info") c.LogLevel
    Propagators := envList env.propagators (gs "tracecontext,baggage") c.Propagators
    ExporterProtocol := envStr env.protocol ProtocolGRPC c.ExporterProtocol
    TracesExporterProtocol := envStr env.tracesProtocol [] c.TracesExporterProtocol
    MetricsExporterProtocol := envStr env.metricsProtocol [] c.MetricsExporterProtocol
    Headers := headers
    TracesHeaders := tracesHeaders
    MetricsHeaders := metricsHeaders
    ResourceAttributes := resourceAttributes }

/-- The option-application phase of newConfig in otelconfig.go: start from the
fresh record (maps allocated empty, generic endpoint preset to the
DefaultExporterEndpoint package variable, passed here explicitly), then apply
the vendor options followed by the caller options, in order. -/
def applyOptions (vendorOpts userOpts : List (Config → Config))
    (defaultEndpoint : GoStr) : Config :=
  let c : Config := {}
  let c := if c.ExporterEndpoint = [] then { c with ExporterEndpoint := defaultEndpoint } else c
  (vendorOpts ++ userOpts).foldl (fun acc o => o acc) c

/-- newConfig from otelconfig.go, up to the resource construction no claim
depends on: apply vendor then caller options, then overlay the environment;
none is the environment-error return. -/
def newConfig (vendorOpts userOpts : List (Config → Config)) (env : Env)
    (defaultEndpoint : GoStr) : Option Config :=
  processEnv env (applyOptions vendorOpts userOpts defaultEndpoint)

/-- WithExporterEndpoint from otelconfig.go. -/
def WithExporterEndpoint (url : GoStr) : Config → Config :=
  fun c => { c with ExporterEndpoint := url }

/-- WithExporterInsecure from otelconfig.go. -/
def WithExporterInsecure (insecure : Bool) : Config → Config :=
  fun c => { c with ExporterEndpointInsecure := insecure }

/-- WithTracesExporterEndpoint from otelconfig.go. -/
def WithTracesExporterEndpoint (url : GoStr) : Config → Config :=
  fun c => { c with TracesExporterEndpoint := url }

/-- WithTracesExporterInsecure from otelconfig.go. -/
def WithTracesExporterInsecure (insecure : Bool) : Config → Config :=
  fun c => { c with TracesExporterEndpointInsecure := insecure }

/-- WithMetricsExporterEndpoint from otelconfig.go. -/
def WithMetricsExporterEndpoint (url : GoStr) : Config → Config :=
  fun c => { c with MetricsExporterEndpoint := url }

/-- WithTracesEnabled from otelconfig.go. -/
def WithTracesEnabled (enabled : Bool) : Config → Config :=
  fun c => { c with TracesEnabled := some enabled }

/-- WithMetricsEnabled from otelconfig.go. -/
def WithMetricsEnabled (enabled : Bool) : Config → Config :=
  fun c => { c with MetricsEnabled := some enabled }

/-- WithServiceName from otelconfig.go. -/
def WithServiceName (name : GoStr) : Config → Config :=
  fun c => { c with ServiceName := name }

/-- An ordered list of resource attributes, the payload of one
WithAttributes-style contribution. -/
abbrev Attrs := List (GoStr × GoStr)

/-- Whitespace recognized when trimming (strings.TrimSpace; the ASCII subset —
no OTEL_SERVICE_VERSION value in any theorem carries exotic Unicode spaces). -/
def goIsSpace (c : Char) : Bool :=
  c = ' ' || c = '\t' || c = '\n' || c = '\x0b' || c = '\x0c' || c = '\r'

/-- Go strings.TrimSpace on the modelled ASCII whitespace. -/
def goTrimSpace (s : GoStr) : GoStr :=
  ((s.dropWhile goIsSpace).reverse.dropWhile goIsSpace).reverse

/-- The telemetry.sdk.version value from version.go (not among the provided
sources; its exact text is irrelevant to every claim). -/
def version : GoStr := gs "v1.14.0"

/-- The ordered attribute contributions that newResource in otelconfig.go
accumulates: the resource-attributes map with empty values dropped
(len(v) > 0), the caller resource options (each an opaque attribute list
here), service name and version when non-empty, the host detector, the fixed
SDK identity attributes, the parsed OTEL_RESOURCE_ATTRIBUTES pairs (empty
values included), and finally the service-version detector, which contributes
service.version exactly when the trimmed OTEL_SERVICE_VERSION is non-blank. -/
def newResourceContributions (c : Config) (optionAttrs : List Attrs)
    (hostName : GoStr) (envResourceAttrs : Attrs) (envServiceVersion : GoStr) :
    List Attrs :=
  [c.ResourceAttributes.filter (fun p => p.2.length > 0)]
  ++ optionAttrs
  ++ (if c.ServiceName ≠ [] then [[(gs "service.name", c.ServiceName)]] else [])
  ++ (if c.ServiceVersion ≠ [] then [[(gs "service.version", c.ServiceVersion)]] else [])
  ++ [[(gs "host.name", hostName)]]
  ++ [[(gs "telemetry.sdk.name", gs "otelconfig"),
       (gs "telemetry.sdk.language", gs "go"),
       (gs "telemetry.sdk.version", version)]]
  ++ [envResourceAttrs]
  ++ [if goTrimSpace envServiceVersion ≠ [] then
        [(gs "service.version", goTrimSpace envServiceVersion)] else []]

/-- Merge an ordered list of contributions into one attribute set, later
contributions winning per key. -/
def mergeAttrs (contribs : List Attrs) : Attrs :=
  contribs.foldl insertAll []

/-- Modelled from the spec: newResource in otelconfig.go delegates the final
merge to the external SDK collaborators resource.New / WithAttributes /
WithHost / WithFromEnv / WithDetectors, which per the spec apply the
accumulated options in order with later contributions overriding same-key
attributes from earlier steps, the environment layer winning even with
empty-string values; the OTEL_RESOURCE_ATTRIBUTES string arrives here already
parsed into pairs by the SDK's own parser, and the host detector's value is
the hostName argument.  The schema-URL bookkeeping and detector errors are
outside every claim and not modelled. -/
def newResource (c : Config) (optionAttrs : List Attrs) (hostName : GoStr)
    (envResourceAttrs : Attrs) (envServiceVersion : GoStr) : Attrs :=
  mergeAttrs (newResourceContributions c optionAttrs hostName envResourceAttrs envServiceVersion)

example :
    goLookup (newResource { ResourceAttributes := [(gs "resource.clobber", gs "CODE_WON")] }
      [] (gs "hosty") [(gs "resource.clobber", gs "ENV_WON")] []) (gs "resource.clobber")
    = some (gs "ENV_WON") := by decide

example :
    goLookup (newResource {} [] (gs "hosty") [(gs "host.name", [])] []) (gs "host.name")
    = some [] := by decide

example : goParseDuration (gs "30s") = some 30000000000 := by decide
example : goParseDuration (gs "300million") = none := by decide
example : goParseDuration (gs "-1s") = some (-1000000000) := by decide
example : goParseDuration (gs "1.5ms") = some 1500000 := by decide
example : goParseDuration (gs "1h2m") = some 3720000000000 := by decide
example : goParseDuration (gs "s") = none := by decide
example : goParseDuration (gs "0") = some 0 := by decide
example : goParseDuration (gs "") = none := by decide

example : ensurePort (gs "localhost") (gs "4317") = gs "localhost:4317" := by decide
example : ensurePort (gs "host:") (gs "4317") = gs "host:4317" := by decide
example : ensurePort (gs "host:80") (gs "4317") = gs "host:80" := by decide
example : trimHttpScheme (gs "https://generic-url") ProtocolGRPC = gs "generic-url:443" := by decide
example : trimHttpScheme (gs "https://generic-url:1234") ProtocolGRPC = gs "generic-url:1234" := by decide
example : trimHttpScheme (gs "http://generic-url:1234") ProtocolGRPC = gs "generic-url:1234" := by decide

/-- The value later-wins merging gives key k from an ordered contribution
list: the last binding of the last contribution that mentions k. -/
def lastLookup (contribs : List Attrs) (k : GoStr) : Option GoStr :=
  match contribs with
  | [] => none
  | l :: rest => orElseO (lastLookup rest k) (goLookup l.reverse k)

theorem orElseO_assoc (a b c : Option GoStr) :
    orElseO (orElseO a b) c = orElseO a (orElseO b c) := by
  cases a <;> simp [orElseO]

theorem orElseO_none_right (a : Option GoStr) : orElseO a none = a := by
  cases a <;> simp [orElseO]

theorem goLookup_append (a b : List (GoStr × GoStr)) (k : GoStr) :
    goLookup (a ++ b) k = orElseO (goLookup a k) (goLookup b k) := by
  induction a with
  | nil => simp [goLookup, orElseO]
  | cons p rest ih =>
    by_cases h : p.1 = k <;> simp [goLookup, h, ih, orElseO]

theorem goLookup_eq_none_of_any_eq_false (m : List (GoStr × GoStr)) (k : GoStr)
    (h : m.any (fun p => p.1 = k) = false) : goLookup m k = none := by
  induction m with
  | nil => rfl
  | cons p rest ih =>
    simp only [List.any_cons, Bool.or_eq_false_iff, decide_eq_false_iff_not] at h
    simp [goLookup, h.1, ih h.2]

theorem goLookup_cons (p : GoStr × GoStr) (rest : List (GoStr × GoStr)) (k : GoStr) :
    goLookup (p :: rest) k = if p.1 = k then some p.2 else goLookup rest k := rfl

theorem goLookup_replace_ne (m : List (GoStr × GoStr)) (k v k' : GoStr) (hk : k' ≠ k) :
    goLookup (m.map (fun p => if p.1 = k then (k, v) else p)) k' = goLookup m k' := by
  induction m with
  | nil => rfl
  | cons p rest ih =>
    simp only [List.map_cons]
    by_cases hp : p.1 = k
    · rw [if_pos hp, goLookup_cons, goLookup_cons,
          if_neg (show ¬(k, v).1 = k' from fun h => hk h.symm),
          if_neg (show ¬p.1 = k' from by rw [hp]; exact fun h => hk h.symm)]
      exact ih
    · rw [if_neg hp, goLookup_cons, goLookup_cons]
      by_cases hp' : p.1 = k'
      · rw [if_pos hp', if_pos hp']
      · rw [if_neg hp', if_neg hp']
        exact ih

theorem goLookup_replace_eq (m : List (GoStr × GoStr)) (k v : GoStr)
    (hany : m.any (fun p => p.1 = k) = true) :
    goLookup (m.map (fun p => if p.1 = k then (k, v) else p)) k = some v := by
  induction m with
  | nil => simp at hany
  | cons p rest ih =>
    simp only [List.map_cons]
    by_cases hp : p.1 = k
    · rw [if_pos hp, goLookup_cons, if_pos (show ((k, v) : GoStr × GoStr).1 = k from rfl)]
    · rw [if_neg hp, goLookup_cons, if_neg hp]
      have hrest : rest.any (fun p => p.1 = k) = true := by
        simpa [hp] using hany
      exact ih hrest

theorem goLookup_goMapSet (m : List (GoStr × GoStr)) (k v k' : GoStr) :
    goLookup (goMapSet m k v) k' = if k' = k then some v else goLookup m k' := by
  by_cases hany : m.any (fun p => p.1 = k) = true
  · rw [goMapSet, if_pos hany]
    by_cases hk : k' = k
    · subst hk
      rw [goLookup_replace_eq m k' v hany, if_pos rfl]
    · rw [goLookup_replace_ne m k v k' hk, if_neg hk]
  · rw [goMapSet, if_neg hany, goLookup_append]
    rw [Bool.not_eq_true] at hany
    by_cases hk : k' = k
    · subst hk
      rw [goLookup_eq_none_of_any_eq_false m k' hany]
      simp [goLookup, orElseO]
    · simp [goLookup, Ne.symm hk, orElseO_none_right, hk]

theorem goLookup_insertAll (l acc : List (GoStr × GoStr)) (k : GoStr) :
    goLookup (insertAll acc l) k = orElseO (goLookup l.reverse k) (goLookup acc k) := by
  induction l generalizing acc with
  | nil => simp [insertAll, goLookup, orElseO]
  | cons p rest ih =>
    have step : insertAll acc (p :: rest) = insertAll (goMapSet acc p.1 p.2) rest := rfl
    rw [step, ih, List.reverse_cons, goLookup_append, orElseO_assoc,
        goLookup_goMapSet]
    congr 1
    rw [goLookup_cons]
    by_cases hk : k = p.1
    · rw [if_pos hk, if_pos hk.symm]
      simp [orElseO]
    · rw [if_neg hk, if_neg (fun h => hk h.symm)]
      simp [goLookup, orElseO]

theorem goLookup_mergeAttrs (contribs : List Attrs) (k : GoStr) :
    goLookup (mergeAttrs contribs) k = lastLookup contribs k := by
  have general : ∀ (cs : List Attrs) (acc : Attrs),
      goLookup (cs.foldl insertAll acc) k = orElseO (lastLookup cs k) (goLookup acc k) := by
    intro cs
    induction cs with
    | nil => intro acc; simp [lastLookup, orElseO]
    | cons l rest ih =>
      intro acc
      rw [List.foldl_cons, ih, lastLookup, orElseO_assoc, goLookup_insertAll]
  rw [mergeAttrs, general contribs []]
  simp [goLookup, orElseO_none_right]

theorem goLookup_eq_none_iff (m : List (GoStr × GoStr)) (k : GoStr) :
    goLookup m k = none ↔ k ∉ m.map Prod.fst := by
  induction m with
  | nil => simp [goLookup]
  | cons p rest ih =>
    by_cases hp : p.1 = k
    · simp [goLookup, hp]
    · simp [goLookup, hp, ih, Ne.symm hp]

theorem goLookup_reverse_of_nodup (l : List (GoStr × GoStr)) (k : GoStr)
    (h : (l.map Prod.fst).Nodup) : goLookup l.reverse k = goLookup l k := by
  induction l with
  | nil => rfl
  | cons p rest ih =>
    simp only [List.map_cons, List.nodup_cons] at h
    rw [List.reverse_cons, goLookup_append]
    by_cases hp : p.1 = k
    · subst hp
      have hnone : goLookup rest p.1 = none := (goLookup_eq_none_iff rest p.1).2 h.1
      have hrevnone : goLookup rest.reverse p.1 = none := by
        rw [ih h.2]; exact hnone
      simp [goLookup, hrevnone, hnone, orElseO]
    · simp [goLookup, hp, ih h.2, orElseO_none_right]

theorem lastLookup_append (a b : List Attrs) (k : GoStr) :
    lastLookup (a ++ b) k = orElseO (lastLookup b k) (lastLookup a k) := by
  induction a with
  | nil => simp [lastLookup, orElseO_none_right]
  | cons l rest ih =>
    rw [List.cons_append, lastLookup, ih, lastLookup, orElseO_assoc]

theorem goIndexColon_eq_none (host : GoStr) (h : ':' ∉ host) : goIndexColon host = none := by
  induction host with
  | nil => rfl
  | cons a t ih =>
    simp only [List.mem_cons, not_or] at h
    simp [goIndexColon, Ne.symm h.1, ih h.2]

theorem goIndexColon_append (h0 mid : GoStr) (h : ':' ∉ h0) :
    goIndexColon (h0 ++ ':' :: mid) = some h0.length := by
  induction h0 with
  | nil => simp [goIndexColon]
  | cons a t ih =>
    simp only [List.mem_cons, not_or] at h
    simp [goIndexColon, Ne.symm h.1, ih h.2]

theorem ensurePort_no_colon (host port : GoStr) (h : ':' ∉ host) :
    ensurePort host port = host ++ [':'] ++ port := by
  rw [ensurePort, goIndexColon_eq_none host h]

theorem ensurePort_trailing_colon (h0 port : GoStr) (h : ':' ∉ h0) :
    ensurePort (h0 ++ [':']) port = (h0 ++ [':']) ++ port := by
  rw [ensurePort, goIndexColon_append h0 [] h]
  simp

theorem ensurePort_port_present (h0 mid port : GoStr) (h : ':' ∉ h0) (hmid : mid ≠ []) :
    ensurePort (h0 ++ ':' :: mid) port = h0 ++ ':' :: mid := by
  have hm : mid.length ≠ 0 := fun hl => hmid (List.length_eq_zero.mp hl)
  have hcond : ¬ h0.length = (h0 ++ ':' :: mid).length - 1 := by
    simp only [List.length_append, List.length_cons]
    omega
  simp only [ensurePort, goIndexColon_append h0 mid h, hcond, if_false]

/-- The resolved traces protocol: the signal-specific protocol with the
generic one as fallback. -/
def resolvedTracesProtocol (c : Config) : GoStr :=
  if c.TracesExporterProtocol = [] then c.ExporterProtocol else c.TracesExporterProtocol

/-- The resolved metrics protocol: the signal-specific protocol with the
generic one as fallback. -/
def resolvedMetricsProtocol (c : Config) : GoStr :=
  if c.MetricsExporterProtocol = [] then c.ExporterProtocol else c.MetricsExporterProtocol

theorem ProtocolGRPC_ne_nil : ProtocolGRPC ≠ [] := by decide

theorem getTracesEndpoint_of_ne (c : Config) (hT : c.TracesExporterEndpoint ≠ []) :
    (c.getTracesEndpoint).1 =
      (ensurePort
        (if resolvedTracesProtocol c = ProtocolGRPC
          then trimHttpScheme c.TracesExporterEndpoint ProtocolGRPC
          else c.TracesExporterEndpoint)
        (if resolvedTracesProtocol c = ProtocolGRPC then GRPCDefaultPort else HTTPDefaultPort),
       c.TracesExporterEndpointInsecure) := by
  by_cases hP : c.TracesExporterProtocol = [] <;>
    by_cases hG : resolvedTracesProtocol c = ProtocolGRPC <;>
    · rw [resolvedTracesProtocol] at hG
      simp [hP] at hG
      simp [Config.getTracesEndpoint, hT, hP, hG, resolvedTracesProtocol, ProtocolGRPC_ne_nil]

theorem getMetricsEndpoint_of_ne (c : Config) (hM : c.MetricsExporterEndpoint ≠ []) :
    (c.getMetricsEndpoint).1 =
      (ensurePort
        (if resolvedMetricsProtocol c = ProtocolGRPC
          then trimHttpScheme c.MetricsExporterEndpoint ProtocolGRPC
          else c.MetricsExporterEndpoint)
        (if resolvedMetricsProtocol c = ProtocolGRPC then GRPCDefaultPort else HTTPDefaultPort),
       c.MetricsExporterEndpointInsecure) := by
  by_cases hP : c.MetricsExporterProtocol = [] <;>
    by_cases hG : resolvedMetricsProtocol c = ProtocolGRPC <;>
    · rw [resolvedMetricsProtocol] at hG
      simp [hP] at hG
      simp [Config.getMetricsEndpoint, hM, hP, hG, resolvedMetricsProtocol, ProtocolGRPC_ne_nil]

theorem getTracesEndpoint_fallback (c : Config) (hT : c.TracesExporterEndpoint = [])
    (hE : c.ExporterEndpoint ≠ []) :
    c.getTracesEndpoint =
      ({ c with TracesExporterEndpoint := c.ExporterEndpoint,
                TracesExporterEndpointInsecure := c.ExporterEndpointInsecure } : Config).getTracesEndpoint := by
  simp [Config.getTracesEndpoint, hT, hE]

theorem getMetricsEndpoint_fallback (c : Config) (hM : c.MetricsExporterEndpoint = [])
    (hE : c.ExporterEndpoint ≠ []) :
    c.getMetricsEndpoint =
      ({ c with MetricsExporterEndpoint := c.ExporterEndpoint,
                MetricsExporterEndpointInsecure := c.ExporterEndpointInsecure } : Config).getMetricsEndpoint := by
  simp [Config.getMetricsEndpoint, hM, hE]

/-- C1: for every configuration record and each signal in {trace, metric}, an
empty signal-specific exporter endpoint makes endpoint resolution fall back to
the generic exporter endpoint (and its insecure flag), and the
protocol-appropriate default port — 4317 for grpc, 4318 for any other (HTTP
family) protocol — is appended to the resolved host string exactly when the
host string carries no port: a colon-free host gets ":port" appended, a host
whose only colon is the bare trailing one gets the port appended after that
colon, and a host with a character after its first colon is returned
unchanged. -/
theorem C1_endpoint_fallback_and_default_port :
    (∀ host port : GoStr, ':' ∉ host → ensurePort host port = host ++ [':'] ++ port)
    ∧ (∀ h0 port : GoStr, ':' ∉ h0 → ensurePort (h0 ++ [':']) port = (h0 ++ [':']) ++ port)
    ∧ (∀ h0 mid port : GoStr, ':' ∉ h0 → mid ≠ [] →
        ensurePort (h0 ++ ':' :: mid) port = h0 ++ ':' :: mid)
    ∧ (∀ c : Config, c.TracesExporterEndpoint = [] → c.ExporterEndpoint ≠ [] →
        c.getTracesEndpoint =
          ({ c with TracesExporterEndpoint := c.ExporterEndpoint,
                    TracesExporterEndpointInsecure := c.ExporterEndpointInsecure } : Config).getTracesEndpoint)
    ∧ (∀ c : Config, c.MetricsExporterEndpoint = [] → c.ExporterEndpoint ≠ [] →
        c.getMetricsEndpoint =
          ({ c with MetricsExporterEndpoint := c.ExporterEndpoint,
                    MetricsExporterEndpointInsecure := c.ExporterEndpointInsecure } : Config).getMetricsEndpoint)
    ∧ (∀ c : Config, c.TracesExporterEndpoint ≠ [] →
        (c.getTracesEndpoint).1.1 =
          ensurePort
            (if resolvedTracesProtocol c = ProtocolGRPC
              then trimHttpScheme c.TracesExporterEndpoint ProtocolGRPC
              else c.TracesExporterEndpoint)
            (if resolvedTracesProtocol c = ProtocolGRPC then GRPCDefaultPort else HTTPDefaultPort))
    ∧ (∀ c : Config, c.MetricsExporterEndpoint ≠ [] →
        (c.getMetricsEndpoint).1.1 =
          ensurePort
            (if resolvedMetricsProtocol c = ProtocolGRPC
              then trimHttpScheme c.MetricsExporterEndpoint ProtocolGRPC
              else c.MetricsExporterEndpoint)
            (if resolvedMetricsProtocol c = ProtocolGRPC then GRPCDefaultPort else HTTPDefaultPort)) := by
  refine ⟨ensurePort_no_colon, ensurePort_trailing_colon, ensurePort_port_present,
          getTracesEndpoint_fallback, getMetricsEndpoint_fallback, ?_, ?_⟩
  · intro c hT
    rw [getTracesEndpoint_of_ne c hT]
  · intro c hM
    rw [getMetricsEndpoint_of_ne c hM]

/-- Witness for C1 at concrete inputs: the generic endpoint "generic-url" with
the default grpc protocol resolves both signals to "generic-url:4317"; a
trailing colon gets 4317 appended after the colon; an explicit port survives. -/
theorem C1_endpoint_fallback_and_default_port_witness :
    ensurePort (gs "generic-url") (gs "4317") = gs "generic-url:4317"
    ∧ ensurePort (gs "host:") (gs "4317") = gs "host:4317"
    ∧ ensurePort (gs "host:80") (gs "4318") = gs "host:80"
    ∧ ({ ExporterEndpoint := gs "generic-url", ExporterProtocol := ProtocolGRPC } : Config).getTracesEndpoint =
        ({ ExporterEndpoint := gs "generic-url", ExporterProtocol := ProtocolGRPC,
           TracesExporterEndpoint := gs "generic-url",
           TracesExporterEndpointInsecure := false } : Config).getTracesEndpoint
    ∧ (({ ExporterEndpoint := gs "generic-url", ExporterProtocol := ProtocolGRPC,
          TracesExporterEndpoint := gs "generic-url" } : Config).getTracesEndpoint).1.1
        = gs "generic-url:4317" := by
  have h := C1_endpoint_fallback_and_default_port
  refine ⟨?_, ?_, ?_, ?_, ?_⟩
  · have := h.1 (gs "generic-url") (gs "4317") (by decide)
    rw [this]; decide
  · have := h.2.1 (gs "host") (gs "4317") (by decide)
    simpa using this
  · have := h.2.2.1 (gs "host") (gs "80") (gs "4318") (by decide) (by decide)
    simpa using this
  · have := h.2.2.2.1 ({ ExporterEndpoint := gs "generic-url", ExporterProtocol := ProtocolGRPC } : Config)
      (by decide) (by decide)
    exact this
  · have := h.2.2.2.2.2.1 ({ ExporterEndpoint := gs "generic-url", ExporterProtocol := ProtocolGRPC, TracesExporterEndpoint := gs "generic-url" } : Config) (by decide)
    rw [this]; decide

/-- C10: the generic insecure flag reaches a signal only through the
empty-endpoint fallback; when the signal-specific endpoint is non-empty the
resolved insecure value is exactly the signal-specific flag, unaffected by any
value of the generic flag, and when the fallback fires the resolved insecure
value is the generic flag. -/
theorem C10_insecure_only_on_fallback :
    (∀ c : Config, c.TracesExporterEndpoint ≠ [] →
        (c.getTracesEndpoint).1.2 = c.TracesExporterEndpointInsecure
        ∧ ∀ b : Bool, (({ c with ExporterEndpointInsecure := b } : Config).getTracesEndpoint).1.2
            = c.TracesExporterEndpointInsecure)
    ∧ (∀ c : Config, c.TracesExporterEndpoint = [] → c.ExporterEndpoint ≠ [] →
        (c.getTracesEndpoint).1.2 = c.ExporterEndpointInsecure)
    ∧ (∀ c : Config, c.MetricsExporterEndpoint ≠ [] →
        (c.getMetricsEndpoint).1.2 = c.MetricsExporterEndpointInsecure
        ∧ ∀ b : Bool, (({ c with ExporterEndpointInsecure := b } : Config).getMetricsEndpoint).1.2
            = c.MetricsExporterEndpointInsecure)
    ∧ (∀ c : Config, c.MetricsExporterEndpoint = [] → c.ExporterEndpoint ≠ [] →
        (c.getMetricsEndpoint).1.2 = c.ExporterEndpointInsecure) := by
  refine ⟨?_, ?_, ?_, ?_⟩
  · intro c hT
    constructor
    · rw [getTracesEndpoint_of_ne c hT]
    · intro b
      rw [getTracesEndpoint_of_ne ({ c with ExporterEndpointInsecure := b } : Config) hT]
  · intro c hT hE
    rw [getTracesEndpoint_fallback c hT hE]
    have h2 := getTracesEndpoint_of_ne ({ c with TracesExporterEndpoint := c.ExporterEndpoint, TracesExporterEndpointInsecure := c.ExporterEndpointInsecure } : Config) hE
    rw [h2]
  · intro c hM
    constructor
    · rw [getMetricsEndpoint_of_ne c hM]
    · intro b
      rw [getMetricsEndpoint_of_ne ({ c with ExporterEndpointInsecure := b } : Config) hM]
  · intro c hM hE
    rw [getMetricsEndpoint_fallback c hM hE]
    have h2 := getMetricsEndpoint_of_ne ({ c with MetricsExporterEndpoint := c.ExporterEndpoint, MetricsExporterEndpointInsecure := c.ExporterEndpointInsecure } : Config) hE
    rw [h2]

/-- Witness for C10 at a concrete record: with a set traces endpoint the
generic insecure flag (true) does not leak into the traces result (false), and
with an empty metrics endpoint the generic flag (true) is the metrics result. -/
theorem C10_insecure_only_on_fallback_witness :
    ((({ ExporterEndpoint := gs "generic-url", ExporterEndpointInsecure := true, TracesExporterEndpoint := gs "traces-url" } : Config).getTracesEndpoint).1.2 = false)
    ∧ ((({ ExporterEndpoint := gs "generic-url", ExporterEndpointInsecure := true, TracesExporterEndpoint := gs "traces-url" } : Config).getMetricsEndpoint).1.2 = true) := by
  constructor
  · exact (C10_insecure_only_on_fallback.1
      ({ ExporterEndpoint := gs "generic-url", ExporterEndpointInsecure := true, TracesExporterEndpoint := gs "traces-url" } : Config) (by decide)).1
  · have := C10_insecure_only_on_fallback.2.2.2
      ({ ExporterEndpoint := gs "generic-url", ExporterEndpointInsecure := true, TracesExporterEndpoint := gs "traces-url" } : Config) (by decide) (by decide)
    rw [this]

/-- C4: for every configuration record (with duplicate-free key sets, the Go
map invariant) the per-signal header maps are exactly the union of the generic
and the signal-specific maps with the signal-specific value winning on key
collision: every key looks up to the signal-specific value when present there
and to the generic value otherwise (so a key is present exactly when it is
present in either input).  The inputs are only read — the model functions are
pure and the originals fill a freshly allocated map. -/
theorem C4_headers_union (c : Config) (k : GoStr)
    (hH : (c.Headers.map Prod.fst).Nodup)
    (hT : (c.TracesHeaders.map Prod.fst).Nodup)
    (hM : (c.MetricsHeaders.map Prod.fst).Nodup) :
    goLookup c.getTracesHeaders k = orElseO (goLookup c.TracesHeaders k) (goLookup c.Headers k)
    ∧ goLookup c.getMetricsHeaders k = orElseO (goLookup c.MetricsHeaders k) (goLookup c.Headers k) := by
  constructor
  · rw [Config.getTracesHeaders, goLookup_insertAll, goLookup_insertAll,
        goLookup_reverse_of_nodup _ _ hT, goLookup_reverse_of_nodup _ _ hH]
    simp [goLookup, orElseO_none_right]
  · rw [Config.getMetricsHeaders, goLookup_insertAll, goLookup_insertAll,
        goLookup_reverse_of_nodup _ _ hM, goLookup_reverse_of_nodup _ _ hH]
    simp [goLookup, orElseO_none_right]

/-- Witness for C4 at a concrete record: on the colliding key the signal value
wins for both signals, and a generic-only key survives into the merge. -/
theorem C4_headers_union_witness :
    goLookup (Config.getTracesHeaders { Headers := [(gs "h", gs "generic"), (gs "only", gs "g2")], TracesHeaders := [(gs "h", gs "traces")] }) (gs "h") = some (gs "traces")
    ∧ goLookup (Config.getTracesHeaders { Headers := [(gs "h", gs "generic"), (gs "only", gs "g2")], TracesHeaders := [(gs "h", gs "traces")] }) (gs "only") = some (gs "g2")
    ∧ goLookup (Config.getMetricsHeaders { Headers := [(gs "h", gs "generic"), (gs "only", gs "g2")], MetricsHeaders := [(gs "h", gs "metrics")] }) (gs "h") = some (gs "metrics") := by
  refine ⟨?_, ?_, ?_⟩
  · have h := (C4_headers_union { Headers := [(gs "h", gs "generic"), (gs "only", gs "g2")], TracesHeaders := [(gs "h", gs "traces")] } (gs "h") (by decide) (by decide) (by decide)).1
    rw [h]; decide
  · have h := (C4_headers_union { Headers := [(gs "h", gs "generic"), (gs "only", gs "g2")], TracesHeaders := [(gs "h", gs "traces")] } (gs "only") (by decide) (by decide) (by decide)).1
    rw [h]; decide
  · have h := (C4_headers_union { Headers := [(gs "h", gs "generic"), (gs "only", gs "g2")], MetricsHeaders := [(gs "h", gs "metrics")] } (gs "h") (by decide) (by decide) (by decide)).2
    rw [h]; decide

/-- C7: building the propagator list maps each identifier through the known
table {b3, baggage, tracecontext, ottrace} in order, silently skipping unknown
identifiers (an identifier outside the table can be dropped from the input
without changing the outcome); an empty resulting implementation list — all
identifiers unknown or an empty input — fails with the invalid-configuration
error naming the supported set "b3,baggage,tracecontext,ottrace", and otherwise
the resolved implementations are composed in input order. -/
theorem C7_propagators_skip_unknown_error_when_empty (ids : List GoStr) :
    (ids.filterMap propagatorsMap = [] →
      configurePropagators ids =
        Except.error (gs "invalid configuration: unsupported propagators. Supported options: b3,baggage,tracecontext,ottrace"))
    ∧ (ids.filterMap propagatorsMap ≠ [] →
      configurePropagators ids = Except.ok (ids.filterMap propagatorsMap))
    ∧ (∀ front back bad, ids = front ++ bad :: back → propagatorsMap bad = none →
      configurePropagators ids = configurePropagators (front ++ back)) := by
  refine ⟨?_, ?_, ?_⟩
  · intro h
    rw [configurePropagators]
    simp [h]
  · intro h
    rw [configurePropagators]
    simp [h]
  · intro front back bad hids hbad
    subst hids
    rw [configurePropagators, configurePropagators]
    simp [List.filterMap_append, List.filterMap_cons, hbad]

/-- Witness for C7: the propagator list ["invalid"] yields the error naming
the supported identifiers; ["tracecontext", "baggage"] resolves in order; and
dropping the unknown identifier from ["b3", "invalid"] changes nothing. -/
theorem C7_propagators_witness :
    configurePropagators [gs "invalid"]
      = Except.error (gs "invalid configuration: unsupported propagators. Supported options: b3,baggage,tracecontext,ottrace")
    ∧ configurePropagators [gs "tracecontext", gs "baggage"]
      = Except.ok [Propagator.tracecontext, Propagator.baggage]
    ∧ configurePropagators [gs "b3", gs "invalid"] = configurePropagators [gs "b3"] := by
  refine ⟨?_, ?_, ?_⟩
  · exact (C7_propagators_skip_unknown_error_when_empty [gs "invalid"]).1 (by decide)
  · have h := (C7_propagators_skip_unknown_error_when_empty [gs "tracecontext", gs "baggage"]).2.1 (by decide)
    rw [h]
    exact congrArg Except.ok (by decide)
  · exact (C7_propagators_skip_unknown_error_when_empty [gs "b3", gs "invalid"]).2.2
      [gs "b3"] [] (gs "invalid") (by decide) (by decide)

theorem goHasPref_append_self (p t : GoStr) : goHasPref p (p ++ t) = true := by
  induction p with
  | nil => rfl
  | cons a ps ih => simp [goHasPref, ih]

theorem mem_of_goHasPref (p s : GoStr) (h : goHasPref p s = true) : ∀ a ∈ p, a ∈ s := by
  induction p generalizing s with
  | nil =>
    intro a ha
    simp at ha
  | cons b ps ih =>
    cases s with
    | nil => simp [goHasPref] at h
    | cons c cs =>
      simp only [goHasPref, Bool.and_eq_true, decide_eq_true_eq] at h
      intro a ha
      rcases List.mem_cons.mp ha with ha1 | ha2
      · rw [ha1, h.1]
        exact List.mem_cons_self _ _
      · exact List.mem_cons_of_mem _ (ih cs h.2 a ha2)

theorem takeWhile_all (t : GoStr) (f : Char → Bool) (h : ∀ a ∈ t, f a = true) :
    t.takeWhile f = t := by
  induction t with
  | nil => rfl
  | cons a ts ih =>
    rw [List.takeWhile_cons, if_pos (h a (List.mem_cons_self a ts))]
    rw [ih (fun b hb => h b (List.mem_cons_of_mem a hb))]

theorem splitLastColon_eq_none (t : GoStr) (h : ':' ∉ t) : splitLastColon t = none := by
  induction t with
  | nil => rfl
  | cons a ts ih =>
    simp only [List.mem_cons, not_or] at h
    rw [splitLastColon, ih h.2]
    simp [Ne.symm h.1]

/-- A plain registered-name host character: one that net/url leaves unescaped
in a host (hostASCIIAllowed) and that carries no port, bracket or escape
syntax of its own — the fragment on which the URL model provably agrees with
net/url.Parse. -/
def plainHostChar (c : Char) : Bool :=
  hostASCIIAllowed c && !(c = ':' || c = '[' || c = ']')

theorem validHostChars_of_allowed (t : GoStr)
    (h : ∀ a ∈ t, hostASCIIAllowed a = true) : validHostChars t = true := by
  rw [validHostChars]
  induction t with
  | nil => rfl
  | cons c rest ih =>
    have hc := h c (List.mem_cons_self c rest)
    have hnp : ¬(c = '%') := by
      intro he
      rw [he] at hc
      exact absurd hc (by decide)
    rw [validHostLoop, if_neg hnp, if_neg (by simp [hc])]
    exact ih (fun a ha => h a (List.mem_cons_of_mem c ha))

theorem secureGrpcPort_plain (t : GoStr) (hall : t.all plainHostChar = true) :
    secureGrpcPort (gs "https://" ++ t) = t ++ gs ":443" := by
  have hchars : ∀ a ∈ t, plainHostChar a = true := by
    intro a ha
    exact List.all_eq_true.mp hall a ha
  have hallowed : ∀ a ∈ t, hostASCIIAllowed a = true := by
    intro a ha
    have := hchars a ha
    simp only [plainHostChar, Bool.and_eq_true] at this
    exact this.1
  have hne : ∀ a ∈ t, ∀ x : Char, hostASCIIAllowed x = false → a ≠ x := by
    intro a ha x hx he
    rw [he] at ha
    rw [hallowed x ha] at hx
    exact Bool.noConfusion hx
  have hcolon : ':' ∉ t := by
    intro hmem
    exact absurd (hchars ':' hmem) (by decide)
  have htake : t.takeWhile (fun c => !isAuthorityEnd c) = t := by
    apply takeWhile_all
    intro a ha
    have h1 : a ≠ '/' := hne a ha '/' (by decide)
    have h2 : a ≠ '?' := hne a ha '?' (by decide)
    have h3 : a ≠ '#' := hne a ha '#' (by decide)
    simp [isAuthorityEnd, h1, h2, h3]
  have hany : t.any (fun c => c = '@' || c = '[' || c = ']') = false := by
    rw [List.any_eq_false]
    intro a ha
    have h1 : a ≠ '@' := hne a ha '@' (by decide)
    have h2 : a ≠ '[' := by
      intro he
      rw [he] at ha
      exact absurd (hchars '[' ha) (by decide)
    have h3 : a ≠ ']' := by
      intro he
      rw [he] at ha
      exact absurd (hchars ']' ha) (by decide)
    simp [h1, h2, h3]
  have hvalid : validHostChars t = true := validHostChars_of_allowed t hallowed
  have hdrop : (gs "https://" ++ t).drop 8 = t := by
    rw [show (8 : Nat) = (gs "https://").length from rfl, List.drop_left]
  rw [secureGrpcPort, urlParseHost]
  simp only [goHasPref_append_self, if_true, hdrop, htake, hany, hvalid, Bool.not_true,
    Bool.false_eq_true, if_false, splitLastColon_eq_none t hcolon]
  rw [urlPort, splitLastColon_eq_none t hcolon]
  simp [SSLDefaultPort, gs]

theorem trimHttpScheme_https_plain (t : GoStr) (hall : t.all plainHostChar = true) :
    trimHttpScheme (gs "https://" ++ t) ProtocolGRPC = t ++ gs ":443" := by
  have hslash : '/' ∉ t := by
    intro hmem
    exact absurd (List.all_eq_true.mp hall '/' hmem) (by decide)
  have hnopref : goHasPref (gs "https://") (t ++ gs ":443") = false := by
    by_contra hcontra
    rw [Bool.not_eq_false] at hcontra
    have hmem := mem_of_goHasPref _ _ hcontra '/' (by decide)
    rcases List.mem_append.mp hmem with h1 | h2
    · exact hslash h1
    · exact absurd h2 (by decide)
  rw [trimHttpScheme]
  simp only [goHasPref_append_self, if_true, if_pos rfl]
  rw [secureGrpcPort_plain t hall, goTrimPref, hnopref]
  simp

/-- C5: under the grpc protocol, endpoint resolution strips an http:// or
https:// scheme prefix — the http:// case leaves exactly the remainder, and
the https:// case with a plain host carrying no explicit port (every remainder
character a valid unescaped host character, with no colon or bracket) yields
the host followed by ":443"; in particular the generic endpoint
"https://generic-url" resolves to "generic-url:443" for both the trace and the
metric signal. -/
theorem C5_grpc_scheme_strip :
    (∀ t : GoStr, trimHttpScheme (gs "http://" ++ t) ProtocolGRPC = t)
    ∧ (∀ t : GoStr, t.all plainHostChar = true →
        trimHttpScheme (gs "https://" ++ t) ProtocolGRPC = t ++ gs ":443")
    ∧ ((({ ExporterEndpoint := gs "https://generic-url", ExporterProtocol := ProtocolGRPC } : Config).getTracesEndpoint).1.1 = gs "generic-url:443")
    ∧ ((({ ExporterEndpoint := gs "https://generic-url", ExporterProtocol := ProtocolGRPC } : Config).getMetricsEndpoint).1.1 = gs "generic-url:443") := by
  refine ⟨?_, trimHttpScheme_https_plain, by decide, by decide⟩
  intro t
  rfl

/-- Witness for C5 at concrete endpoints: both scheme prefixes are stripped
and the secure grpc port is inferred for the portless https host. -/
theorem C5_grpc_scheme_strip_witness :
    trimHttpScheme (gs "http://traces-url") ProtocolGRPC = gs "traces-url"
    ∧ trimHttpScheme (gs "https://generic-url") ProtocolGRPC = gs "generic-url:443" := by
  constructor
  · exact C5_grpc_scheme_strip.1 (gs "traces-url")
  · have h := C5_grpc_scheme_strip.2.1 (gs "generic-url") (by decide)
    simpa using h

theorem trimHttpScheme_no_scheme (u p : GoStr)
    (h1 : goHasPref (gs "http://") u = false)
    (h2 : goHasPref (gs "https://") u = false) :
    trimHttpScheme u p = u := by
  simp [trimHttpScheme, h1, h2]

theorem getTracesEndpoint_fst (c : Config)
    (h0 : ¬(c.TracesExporterEndpoint = [] ∧ c.ExporterEndpoint = [])) :
    (c.getTracesEndpoint).1 =
      (ensurePort ((c.getTracesEndpoint).2.TracesExporterEndpoint)
        (if (c.getTracesEndpoint).2.TracesExporterProtocol = ProtocolGRPC
          then GRPCDefaultPort else HTTPDefaultPort),
       (c.getTracesEndpoint).2.TracesExporterEndpointInsecure) := by
  simp only [Config.getTracesEndpoint, if_neg h0]
  simp [ite_not]

theorem getTracesEndpoint_snd_protocol (c : Config)
    (h0 : ¬(c.TracesExporterEndpoint = [] ∧ c.ExporterEndpoint = [])) :
    (c.getTracesEndpoint).2.TracesExporterProtocol = resolvedTracesProtocol c
    ∧ (c.getTracesEndpoint).2.ExporterProtocol = c.ExporterProtocol := by
  by_cases hT : c.TracesExporterEndpoint = []
  case pos =>
    have hE2 : c.ExporterEndpoint ≠ [] := fun hh => h0 ⟨hT, hh⟩
    by_cases hPr : c.TracesExporterProtocol = [] <;>
      by_cases hG : resolvedTracesProtocol c = ProtocolGRPC <;>
      · rw [resolvedTracesProtocol] at hG
        simp [hPr] at hG
        constructor <;>
          simp [Config.getTracesEndpoint, hT, hE2, hPr, hG, resolvedTracesProtocol,
            ProtocolGRPC_ne_nil]
  case neg =>
    by_cases hPr : c.TracesExporterProtocol = [] <;>
      by_cases hG : resolvedTracesProtocol c = ProtocolGRPC <;>
      · rw [resolvedTracesProtocol] at hG
        simp [hPr] at hG
        constructor <;>
          simp [Config.getTracesEndpoint, hT, hPr, hG, resolvedTracesProtocol,
            ProtocolGRPC_ne_nil]

theorem getTracesEndpoint_proto_inv (c : Config)
    (h0 : ¬(c.TracesExporterEndpoint = [] ∧ c.ExporterEndpoint = [])) :
    (c.getTracesEndpoint).2.TracesExporterProtocol = [] →
    (c.getTracesEndpoint).2.ExporterProtocol = [] := by
  intro hq
  rw [(getTracesEndpoint_snd_protocol c h0).1, resolvedTracesProtocol] at hq
  rw [(getTracesEndpoint_snd_protocol c h0).2]
  by_cases hPr : c.TracesExporterProtocol = []
  · rw [if_pos hPr] at hq
    exact hq
  · rw [if_neg hPr] at hq
    exact absurd hq hPr

theorem getTracesEndpoint_stable (d : Config)
    (hE : d.TracesExporterEndpoint ≠ [])
    (hP : d.TracesExporterProtocol = [] → d.ExporterProtocol = [])
    (hH1 : goHasPref (gs "http://") d.TracesExporterEndpoint = false)
    (hH2 : goHasPref (gs "https://") d.TracesExporterEndpoint = false) :
    d.getTracesEndpoint =
      ((ensurePort d.TracesExporterEndpoint
          (if resolvedTracesProtocol d = ProtocolGRPC then GRPCDefaultPort else HTTPDefaultPort),
        d.TracesExporterEndpointInsecure), d) := by
  have htrim : trimHttpScheme d.TracesExporterEndpoint ProtocolGRPC = d.TracesExporterEndpoint :=
    trimHttpScheme_no_scheme _ _ hH1 hH2
  obtain ⟨e, ei, te, tei, ten, sn, sv, me, mei, men, mrp, ll, prl, ep, tp, mp, hd, thd, mhd, ra⟩ := d
  by_cases hPr : tp = []
  · have hEp : ep = [] := hP hPr
    subst hPr
    subst hEp
    simp [Config.getTracesEndpoint, hE, resolvedTracesProtocol,
      (by decide : ¬(([] : GoStr) = ProtocolGRPC))]
  · by_cases hG : tp = ProtocolGRPC
    · subst hG
      simp [Config.getTracesEndpoint, hE, resolvedTracesProtocol, htrim, ProtocolGRPC_ne_nil]
    · simp [Config.getTracesEndpoint, hE, resolvedTracesProtocol, hPr, hG]

theorem getMetricsEndpoint_fst (c : Config)
    (h0 : ¬(c.MetricsExporterEndpoint = [] ∧ c.ExporterEndpoint = [])) :
    (c.getMetricsEndpoint).1 =
      (ensurePort ((c.getMetricsEndpoint).2.MetricsExporterEndpoint)
        (if (c.getMetricsEndpoint).2.MetricsExporterProtocol = ProtocolGRPC
          then GRPCDefaultPort else HTTPDefaultPort),
       (c.getMetricsEndpoint).2.MetricsExporterEndpointInsecure) := by
  simp only [Config.getMetricsEndpoint, if_neg h0]

theorem getMetricsEndpoint_snd_protocol (c : Config)
    (h0 : ¬(c.MetricsExporterEndpoint = [] ∧ c.ExporterEndpoint = [])) :
    (c.getMetricsEndpoint).2.MetricsExporterProtocol = resolvedMetricsProtocol c
    ∧ (c.getMetricsEndpoint).2.ExporterProtocol = c.ExporterProtocol := by
  by_cases hM : c.MetricsExporterEndpoint = []
  case pos =>
    have hE2 : c.ExporterEndpoint ≠ [] := fun hh => h0 ⟨hM, hh⟩
    by_cases hPr : c.MetricsExporterProtocol = [] <;>
      by_cases hG : resolvedMetricsProtocol c = ProtocolGRPC <;>
      · rw [resolvedMetricsProtocol] at hG
        simp [hPr] at hG
        constructor <;>
          simp [Config.getMetricsEndpoint, hM, hE2, hPr, hG, resolvedMetricsProtocol,
            ProtocolGRPC_ne_nil]
  case neg =>
    by_cases hPr : c.MetricsExporterProtocol = [] <;>
      by_cases hG : resolvedMetricsProtocol c = ProtocolGRPC <;>
      · rw [resolvedMetricsProtocol] at hG
        simp [hPr] at hG
        constructor <;>
          simp [Config.getMetricsEndpoint, hM, hPr, hG, resolvedMetricsProtocol,
            ProtocolGRPC_ne_nil]

theorem getMetricsEndpoint_proto_inv (c : Config)
    (h0 : ¬(c.MetricsExporterEndpoint = [] ∧ c.ExporterEndpoint = [])) :
    (c.getMetricsEndpoint).2.MetricsExporterProtocol = [] →
    (c.getMetricsEndpoint).2.ExporterProtocol = [] := by
  intro hq
  rw [(getMetricsEndpoint_snd_protocol c h0).1, resolvedMetricsProtocol] at hq
  rw [(getMetricsEndpoint_snd_protocol c h0).2]
  by_cases hPr : c.MetricsExporterProtocol = []
  · rw [if_pos hPr] at hq
    exact hq
  · rw [if_neg hPr] at hq
    exact absurd hq hPr

theorem getMetricsEndpoint_stable (d : Config)
    (hE : d.MetricsExporterEndpoint ≠ [])
    (hP : d.MetricsExporterProtocol = [] → d.ExporterProtocol = [])
    (hH1 : goHasPref (gs "http://") d.MetricsExporterEndpoint = false)
    (hH2 : goHasPref (gs "https://") d.MetricsExporterEndpoint = false) :
    d.getMetricsEndpoint =
      ((ensurePort d.MetricsExporterEndpoint
          (if resolvedMetricsProtocol d = ProtocolGRPC then GRPCDefaultPort else HTTPDefaultPort),
        d.MetricsExporterEndpointInsecure), d) := by
  have htrim : trimHttpScheme d.MetricsExporterEndpoint ProtocolGRPC = d.MetricsExporterEndpoint :=
    trimHttpScheme_no_scheme _ _ hH1 hH2
  obtain ⟨e, ei, te, tei, ten, sn, sv, me, mei, men, mrp, ll, prl, ep, tp, mp, hd, thd, mhd, ra⟩ := d
  by_cases hPr : mp = []
  · have hEp : ep = [] := hP hPr
    subst hPr
    subst hEp
    simp [Config.getMetricsEndpoint, hE, resolvedMetricsProtocol,
      (by decide : ¬(([] : GoStr) = ProtocolGRPC))]
  · by_cases hG : mp = ProtocolGRPC
    · subst hG
      simp [Config.getMetricsEndpoint, hE, resolvedMetricsProtocol, htrim, ProtocolGRPC_ne_nil]
    · simp [Config.getMetricsEndpoint, hE, resolvedMetricsProtocol, hPr, hG]

/-- C6 fails as stated: endpoint resolution is not idempotent on every record.
With the traces endpoint "http://http://x" under the grpc protocol the first
invocation strips one scheme prefix (returning endpoint "http://x") while the
second invocation strips the next one and returns "x:4317". -/
theorem C6_idempotence_counterexample :
    ((({ TracesExporterEndpoint := gs "http://http://x", TracesExporterProtocol := ProtocolGRPC } : Config).getTracesEndpoint).1.1 = gs "http://x")
    ∧ (((({ TracesExporterEndpoint := gs "http://http://x", TracesExporterProtocol := ProtocolGRPC } : Config).getTracesEndpoint).2.getTracesEndpoint).1.1 = gs "x:4317")
    ∧ ((({ TracesExporterEndpoint := gs "http://http://x", TracesExporterProtocol := ProtocolGRPC } : Config).getTracesEndpoint).2.getTracesEndpoint).1
        ≠ (({ TracesExporterEndpoint := gs "http://http://x", TracesExporterProtocol := ProtocolGRPC } : Config).getTracesEndpoint).1 := by
  refine ⟨by decide, by decide, by decide⟩

/-- C6 amended: for each signal, invoking endpoint resolution a second time
returns the first invocation's (endpoint, insecure) result and leaves the
record unchanged, provided the signal endpoint stored by the first invocation
is non-empty and does not itself begin with "http://" or "https://" (a doubled
scheme prefix under grpc, or an endpoint that trims away to nothing, breaks
idempotence as the counterexample shows). -/
theorem C6_resolution_idempotent_amended :
    (∀ c : Config,
      (c.getTracesEndpoint).2.TracesExporterEndpoint ≠ [] →
      goHasPref (gs "http://") ((c.getTracesEndpoint).2.TracesExporterEndpoint) = false →
      goHasPref (gs "https://") ((c.getTracesEndpoint).2.TracesExporterEndpoint) = false →
      (c.getTracesEndpoint).2.getTracesEndpoint = c.getTracesEndpoint)
    ∧ (∀ c : Config,
      (c.getMetricsEndpoint).2.MetricsExporterEndpoint ≠ [] →
      goHasPref (gs "http://") ((c.getMetricsEndpoint).2.MetricsExporterEndpoint) = false →
      goHasPref (gs "https://") ((c.getMetricsEndpoint).2.MetricsExporterEndpoint) = false →
      (c.getMetricsEndpoint).2.getMetricsEndpoint = c.getMetricsEndpoint) := by
  constructor
  · intro c hE hH1 hH2
    have h0 : ¬(c.TracesExporterEndpoint = [] ∧ c.ExporterEndpoint = []) := by
      intro h0
      apply hE
      simp [Config.getTracesEndpoint, h0, h0.1]
    have hstable := getTracesEndpoint_stable ((c.getTracesEndpoint).2) hE
      (getTracesEndpoint_proto_inv c h0) hH1 hH2
    rw [hstable]
    conv_rhs => rw [← Prod.mk.eta (p := c.getTracesEndpoint)]
    rw [getTracesEndpoint_fst c h0]
    rw [Prod.ext_iff]
    refine ⟨?_, rfl⟩
    rw [Prod.ext_iff]
    refine ⟨?_, rfl⟩
    have hres : resolvedTracesProtocol ((c.getTracesEndpoint).2)
        = ((c.getTracesEndpoint).2).TracesExporterProtocol := by
      by_cases hq : ((c.getTracesEndpoint).2).TracesExporterProtocol = []
      · rw [resolvedTracesProtocol, if_pos hq, getTracesEndpoint_proto_inv c h0 hq, hq]
      · rw [resolvedTracesProtocol, if_neg hq]
    rw [hres]
  · intro c hE hH1 hH2
    have h0 : ¬(c.MetricsExporterEndpoint = [] ∧ c.ExporterEndpoint = []) := by
      intro h0
      apply hE
      simp [Config.getMetricsEndpoint, h0, h0.1]
    have hstable := getMetricsEndpoint_stable ((c.getMetricsEndpoint).2) hE
      (getMetricsEndpoint_proto_inv c h0) hH1 hH2
    rw [hstable]
    conv_rhs => rw [← Prod.mk.eta (p := c.getMetricsEndpoint)]
    rw [getMetricsEndpoint_fst c h0]
    rw [Prod.ext_iff]
    refine ⟨?_, rfl⟩
    rw [Prod.ext_iff]
    refine ⟨?_, rfl⟩
    have hres : resolvedMetricsProtocol ((c.getMetricsEndpoint).2)
        = ((c.getMetricsEndpoint).2).MetricsExporterProtocol := by
      by_cases hq : ((c.getMetricsEndpoint).2).MetricsExporterProtocol = []
      · rw [resolvedMetricsProtocol, if_pos hq, getMetricsEndpoint_proto_inv c h0 hq, hq]
      · rw [resolvedMetricsProtocol, if_neg hq]
    rw [hres]

/-- Witness for the amended C6 at a concrete record: a plain host endpoint is
resolved identically by a second invocation. -/
theorem C6_resolution_idempotent_amended_witness :
    ((({ ExporterEndpoint := gs "generic-url", ExporterProtocol := ProtocolGRPC } : Config).getTracesEndpoint).2.getTracesEndpoint
      = ({ ExporterEndpoint := gs "generic-url", ExporterProtocol := ProtocolGRPC } : Config).getTracesEndpoint)
    ∧ ((({ ExporterEndpoint := gs "generic-url", ExporterProtocol := ProtocolGRPC } : Config).getMetricsEndpoint).2.getMetricsEndpoint
      = ({ ExporterEndpoint := gs "generic-url", ExporterProtocol := ProtocolGRPC } : Config).getMetricsEndpoint) := by
  constructor
  · exact C6_resolution_idempotent_amended.1
      ({ ExporterEndpoint := gs "generic-url", ExporterProtocol := ProtocolGRPC } : Config)
      (by decide) (by decide) (by decide)
  · exact C6_resolution_idempotent_amended.2
      ({ ExporterEndpoint := gs "generic-url", ExporterProtocol := ProtocolGRPC } : Config)
      (by decide) (by decide) (by decide)

theorem getTracesEndpoint_preserves (c : Config) :
    (c.getTracesEndpoint).2.TracesEnabled = c.TracesEnabled
    ∧ (c.getTracesEndpoint).2.MetricsEnabled = c.MetricsEnabled
    ∧ (c.getTracesEndpoint).2.MetricsExporterEndpoint = c.MetricsExporterEndpoint
    ∧ (c.getTracesEndpoint).2.ExporterEndpoint = c.ExporterEndpoint := by
  refine ⟨?_, ?_, ?_, ?_⟩ <;>
    · simp only [Config.getTracesEndpoint]
      split_ifs <;> rfl

theorem getMetricsEndpoint_preserves_enabled (c : Config) :
    (c.getMetricsEndpoint).2.MetricsEnabled = c.MetricsEnabled := by
  simp only [Config.getMetricsEndpoint]
  split_ifs <;> rfl

/-- C9: a signal whose tri-state enabled flag is false, or that resolves no
endpoint at all (signal-specific and generic both empty), constructs no
pipeline for that signal and registers no shutdown callback — its setup
returns successfully with no callback — and with both signals disabled and all
endpoints unset the whole setup loop registers zero pipeline shutdown
callbacks and returns no error. -/
theorem C9_disabled_signals_no_pipeline_no_error :
    (∀ c : Config, c.TracesEnabled = some false → (setupTracing c).1 = Except.ok none)
    ∧ (∀ c : Config, c.TracesExporterEndpoint = [] → c.ExporterEndpoint = [] →
        (setupTracing c).1 = Except.ok none)
    ∧ (∀ c : Config, c.MetricsEnabled = some false → (setupMetrics c).1 = Except.ok none)
    ∧ (∀ c : Config, c.MetricsExporterEndpoint = [] → c.ExporterEndpoint = [] →
        (setupMetrics c).1 = Except.ok none)
    ∧ (∀ c : Config, c.TracesEnabled = some false → c.MetricsEnabled = some false →
        c.TracesExporterEndpoint = [] → c.MetricsExporterEndpoint = [] →
        c.ExporterEndpoint = [] → configureSetup c = ([], none)) := by
  have htr : ∀ c : Config, c.TracesEnabled = some false →
      setupTracing c = (Except.ok none, (c.getTracesEndpoint).2) := by
    intro c h
    have hen : (c.getTracesEndpoint).2.TracesEnabled = some false :=
      (getTracesEndpoint_preserves c).1.trans h
    simp [setupTracing, hen]
  have hme : ∀ c : Config, c.MetricsEnabled = some false →
      setupMetrics c = (Except.ok none, (c.getMetricsEndpoint).2) := by
    intro c h
    have hen : (c.getMetricsEndpoint).2.MetricsEnabled = some false :=
      (getMetricsEndpoint_preserves_enabled c).trans h
    simp [setupMetrics, hen]
  refine ⟨?_, ?_, ?_, ?_, ?_⟩
  · intro c h
    rw [htr c h]
  · intro c hT hE
    have hg : c.getTracesEndpoint = (([], false), c) := by
      simp [Config.getTracesEndpoint, hT, hE]
    by_cases he : c.TracesEnabled.getD true <;> simp [setupTracing, hg, he]
  · intro c h
    rw [hme c h]
  · intro c hM hE
    have hg : c.getMetricsEndpoint = (([], false), c) := by
      simp [Config.getMetricsEndpoint, hM, hE]
    by_cases he : c.MetricsEnabled.getD true <;> simp [setupMetrics, hg, he]
  · intro c h1 h2 hT hM hE
    have hgt : c.getTracesEndpoint = (([], false), c) := by
      simp [Config.getTracesEndpoint, hT, hE]
    have htrc : setupTracing c = (Except.ok none, c) := by
      rw [htr c h1, hgt]
    have hmec : setupMetrics c = (Except.ok none, (c.getMetricsEndpoint).2) := hme c h2
    have hgm : c.getMetricsEndpoint = (([], false), c) := by
      simp [Config.getMetricsEndpoint, hM, hE]
    rw [hgm] at hmec
    simp [configureSetup, htrc, hmec]

/-- Witness for C9 at a concrete record: both signals disabled and every
endpoint unset — setup succeeds with zero shutdown callbacks. -/
theorem C9_disabled_signals_no_pipeline_no_error_witness :
    configureSetup ({ TracesEnabled := some false, MetricsEnabled := some false } : Config)
      = ([], none)
    ∧ (setupTracing ({ TracesEnabled := some false, MetricsEnabled := some false } : Config)).1
      = Except.ok none := by
  constructor
  · exact C9_disabled_signals_no_pipeline_no_error.2.2.2.2
      ({ TracesEnabled := some false, MetricsEnabled := some false } : Config)
      (by decide) (by decide) (by decide) (by decide) (by decide)
  · exact C9_disabled_signals_no_pipeline_no_error.1
      ({ TracesEnabled := some false, MetricsEnabled := some false } : Config) (by decide)

theorem goHasPref_of_decomp (p q r : GoStr) (h : q = p ++ r) (t : GoStr) :
    goHasPref p (q ++ t) = true := by
  rw [h, List.append_assoc]
  exact goHasPref_append_self p (r ++ t)

/-- C8: a metrics pipeline whose (supported) protocol reaches the
reporting-period check and whose non-empty reporting period either fails to
parse as a duration or parses to a non-positive one is rejected with an error
carrying the invalid-metric-reporting-period message; the setup loop wraps it
as "setup error: ..." and registers no metrics shutdown callback, so no meter
provider is constructed or installed for that configuration. -/
theorem C8_invalid_reporting_period_setup_error :
    (∀ pc : PipelineConfig,
      (pc.Protocol = ProtocolGRPC ∨ pc.Protocol = ProtocolHTTPProto) →
      pc.ReportingPeriod ≠ [] →
      (∀ d : Int, goParseDuration pc.ReportingPeriod = some d → d ≤ 0) →
      ∃ e, NewMetricsPipeline pc = Except.error e
        ∧ goHasPref (gs "invalid metric reporting period") e = true)
    ∧ (∀ c : Config,
      (c.getMetricsEndpoint).2.MetricsEnabled.getD true = true →
      (c.getMetricsEndpoint).1.1 ≠ [] →
      ((c.getMetricsEndpoint).2.MetricsExporterProtocol = ProtocolGRPC
        ∨ (c.getMetricsEndpoint).2.MetricsExporterProtocol = ProtocolHTTPProto) →
      (c.getMetricsEndpoint).2.MetricsReportingPeriod ≠ [] →
      (∀ d : Int, goParseDuration ((c.getMetricsEndpoint).2.MetricsReportingPeriod) = some d → d ≤ 0) →
      ∃ e, (setupMetrics c).1 = Except.error e
        ∧ goHasPref (gs "invalid metric reporting period") e = true)
    ∧ (∀ c : Config, ∀ s1 : Option Unit, ∀ c1 : Config, ∀ e : GoStr,
      setupTracing c = (Except.ok s1, c1) →
      (setupMetrics c1).1 = Except.error e →
      ∃ l, configureSetup c = (l, some (gs "setup error: " ++ e))
        ∧ Shutdown.metrics ∉ l) := by
  have hpipe : ∀ pc : PipelineConfig,
      (pc.Protocol = ProtocolGRPC ∨ pc.Protocol = ProtocolHTTPProto) →
      pc.ReportingPeriod ≠ [] →
      (∀ d : Int, goParseDuration pc.ReportingPeriod = some d → d ≤ 0) →
      ∃ e, NewMetricsPipeline pc = Except.error e
        ∧ goHasPref (gs "invalid metric reporting period") e = true := by
    intro pc hproto hper hval
    have hexp : newMetricsExporter pc.Protocol = Except.ok () := by
      rcases hproto with h | h <;>
        simp [newMetricsExporter, newTraceExporter, h, ProtocolGRPC, ProtocolHTTPProto, gs]
    match hparse : goParseDuration pc.ReportingPeriod with
    | none =>
      refine ⟨gs "invalid metric reporting period: time: invalid duration " ++ goQuote pc.ReportingPeriod, ?_, ?_⟩
      · simp [NewMetricsPipeline, hexp, hper, hparse]
      · exact goHasPref_of_decomp _ _ (gs ": time: invalid duration ") (by decide) _
    | some d =>
      have hd : d ≤ 0 := hval d hparse
      refine ⟨gs "invalid metric reporting period: " ++ pc.ReportingPeriod, ?_, ?_⟩
      · simp [NewMetricsPipeline, hexp, hper, hparse, hd]
      · exact goHasPref_of_decomp _ _ (gs ": ") (by decide) _
  refine ⟨hpipe, ?_, ?_⟩
  · intro c hen hend hproto hper hval
    obtain ⟨e, he, hpref⟩ := hpipe
      { Protocol := (c.getMetricsEndpoint).2.MetricsExporterProtocol,
        Endpoint := trimHttpScheme ((c.getMetricsEndpoint).1.1) ((c.getMetricsEndpoint).2.MetricsExporterProtocol),
        Insecure := (c.getMetricsEndpoint).1.2,
        Headers := ((c.getMetricsEndpoint).2).getMetricsHeaders,
        ReportingPeriod := (c.getMetricsEndpoint).2.MetricsReportingPeriod,
        Propagators := (c.getMetricsEndpoint).2.Propagators }
      hproto hper hval
    refine ⟨e, ?_, hpref⟩
    simp [setupMetrics, hen, hend, he]
  · intro c s1 c1 e htrace hmet
    rcases hsp : setupMetrics c1 with ⟨f, c2⟩
    rw [hsp] at hmet
    simp only at hmet
    subst hmet
    cases s1 with
    | none =>
      refine ⟨[], ?_, by simp⟩
      simp [configureSetup, htrace, hsp]
    | some u =>
      refine ⟨[Shutdown.traces], ?_, by simp⟩
      simp [configureSetup, htrace, hsp]

/-- Witness for C8 at concrete inputs: the reporting period "300million" (an
unknown duration unit) makes the metrics pipeline fail, and the whole setup
loop for a grpc configuration with that period returns the wrapped setup error
with no shutdown callbacks registered for metrics. -/
theorem C8_invalid_reporting_period_setup_error_witness :
    (∃ e, NewMetricsPipeline ({ Protocol := ProtocolGRPC, Endpoint := gs "localhost:4317", ReportingPeriod := gs "300million" } : PipelineConfig) = Except.error e
      ∧ goHasPref (gs "invalid metric reporting period") e = true)
    ∧ (∃ e, (setupMetrics ({ ExporterEndpoint := gs "localhost", ExporterProtocol := ProtocolGRPC, MetricsExporterProtocol := ProtocolGRPC, MetricsReportingPeriod := gs "300million" } : Config)).1 = Except.error e
      ∧ goHasPref (gs "invalid metric reporting period") e = true) := by
  constructor
  · exact C8_invalid_reporting_period_setup_error.1
      ({ Protocol := ProtocolGRPC, Endpoint := gs "localhost:4317", ReportingPeriod := gs "300million" } : PipelineConfig)
      (Or.inl (by decide)) (by decide) (by decide)
  · exact C8_invalid_reporting_period_setup_error.2.1
      ({ ExporterEndpoint := gs "localhost", ExporterProtocol := ProtocolGRPC, MetricsExporterProtocol := ProtocolGRPC, MetricsReportingPeriod := gs "300million" } : Config)
      (by decide) (by decide) (Or.inl (by decide)) (by decide) (by decide)

/-- C2 fails as stated: OTEL_TRACES_ENABLED carries no overwrite tag, so the
well-formed environment value "false" does not overwrite the caller option
WithTracesEnabled(true) — newConfig returns TracesEnabled = some true, not the
parsed environment value some false. -/
theorem C2_env_override_counterexample :
    goParseBool (gs "false") = some false
    ∧ (newConfig [] [WithTracesEnabled true] { tracesEnabled := some (gs "false") } (gs "localhost")).map (fun c => c.TracesEnabled) = some (some true)
    ∧ ((some true : Option Bool) ≠ some false) := by
  refine ⟨by decide, by decide, by decide⟩

/-- C2 amended: newConfig applies the environment overlay after the vendor and
caller options, and for every recognized variable that carries the overwrite
struct tag — the endpoints, service name and version, reporting period, log
level, propagators, protocols, header maps and resource attributes — a set,
well-formed value overwrites whatever the options wrote; but the three
insecure flags and the two enabled tri-states carry no overwrite tag, so their
environment value only lands when the options left the field at its zero value
(false, respectively unset), and an option-set value survives the overlay. -/
theorem C2_env_overlay_amended (vendorOpts userOpts : List (Config → Config)) (env : Env)
    (defaultEndpoint : GoStr) (cfg : Config)
    (hok : newConfig vendorOpts userOpts env defaultEndpoint = some cfg) :
    (∀ v, env.endpoint = some v → cfg.ExporterEndpoint = v)
    ∧ (∀ v, env.tracesEndpoint = some v → cfg.TracesExporterEndpoint = v)
    ∧ (∀ v, env.metricsEndpoint = some v → cfg.MetricsExporterEndpoint = v)
    ∧ (∀ v, env.serviceName = some v → cfg.ServiceName = v)
    ∧ (∀ v, env.serviceVersion = some v → cfg.ServiceVersion = v)
    ∧ (∀ v, env.metricsPeriod = some v → cfg.MetricsReportingPeriod = v)
    ∧ (∀ v, env.logLevel = some v → cfg.LogLevel = v)
    ∧ (∀ v, env.protocol = some v → cfg.ExporterProtocol = v)
    ∧ (∀ v, env.tracesProtocol = some v → cfg.TracesExporterProtocol = v)
    ∧ (∀ v, env.metricsProtocol = some v → cfg.MetricsExporterProtocol = v)
    ∧ (∀ v, env.propagators = some v → cfg.Propagators = goSplitComma v)
    ∧ (∀ v m, env.headers = some v → parseEnvMap v = some m → cfg.Headers = m)
    ∧ (∀ v m, env.tracesHeaders = some v → parseEnvMap v = some m → cfg.TracesHeaders = m)
    ∧ (∀ v m, env.metricsHeaders = some v → parseEnvMap v = some m → cfg.MetricsHeaders = m)
    ∧ (∀ v m, env.resourceAttributes = some v → parseEnvMap v = some m → cfg.ResourceAttributes = m)
    ∧ (∀ v b, env.insecure = some v → goParseBool v = some b →
        cfg.ExporterEndpointInsecure = ((applyOptions vendorOpts userOpts defaultEndpoint).ExporterEndpointInsecure || b))
    ∧ (∀ v b, env.tracesInsecure = some v → goParseBool v = some b →
        cfg.TracesExporterEndpointInsecure = ((applyOptions vendorOpts userOpts defaultEndpoint).TracesExporterEndpointInsecure || b))
    ∧ (∀ v b, env.metricsInsecure = some v → goParseBool v = some b →
        cfg.MetricsExporterEndpointInsecure = ((applyOptions vendorOpts userOpts defaultEndpoint).MetricsExporterEndpointInsecure || b))
    ∧ (∀ v b, env.tracesEnabled = some v → goParseBool v = some b →
        cfg.TracesEnabled = some ((applyOptions vendorOpts userOpts defaultEndpoint).TracesEnabled.getD b))
    ∧ (∀ v b, env.metricsEnabled = some v → goParseBool v = some b →
        cfg.MetricsEnabled = some ((applyOptions vendorOpts userOpts defaultEndpoint).MetricsEnabled.getD b)) := by
  rw [newConfig] at hok
  set c1 := applyOptions vendorOpts userOpts defaultEndpoint with hc1
  simp only [processEnv, Bind.bind, Option.bind_eq_some] at hok
  obtain ⟨ei, hei, hok⟩ := hok
  obtain ⟨ti, hti, hok⟩ := hok
  obtain ⟨ten, hten, hok⟩ := hok
  obtain ⟨mi, hmi, hok⟩ := hok
  obtain ⟨men, hmen, hok⟩ := hok
  obtain ⟨hdr, hhdr, hok⟩ := hok
  obtain ⟨thdr, hthdr, hok⟩ := hok
  obtain ⟨mhdr, hmhdr, hok⟩ := hok
  obtain ⟨rattr, hrattr, hok⟩ := hok
  rw [Option.some.injEq] at hok
  subst hok
  refine ⟨?_, ?_, ?_, ?_, ?_, ?_, ?_, ?_, ?_, ?_, ?_, ?_, ?_, ?_, ?_, ?_, ?_, ?_, ?_, ?_⟩
  · intro v hv
    simp [envStr, hv]
  · intro v hv
    simp [envStr, hv]
  · intro v hv
    simp [envStr, hv]
  · intro v hv
    simp [envStr, hv]
  · intro v hv
    simp [envStr, hv]
  · intro v hv
    simp [envStr, hv]
  · intro v hv
    simp [envStr, hv]
  · intro v hv
    simp [envStr, hv]
  · intro v hv
    simp [envStr, hv]
  · intro v hv
    simp [envStr, hv]
  · intro v hv
    simp [envList, hv]
  · intro v m hv hm
    rw [hv] at hhdr
    simp [envMap, hm] at hhdr
    simp [hhdr]
  · intro v m hv hm
    rw [hv] at hthdr
    simp [envMap, hm] at hthdr
    simp [hthdr]
  · intro v m hv hm
    rw [hv] at hmhdr
    simp [envMap, hm] at hmhdr
    simp [hmhdr]
  · intro v m hv hm
    rw [hv] at hrattr
    simp [envMap, hm] at hrattr
    simp [hrattr]
  · intro v b hv hb
    by_cases hcur : c1.ExporterEndpointInsecure <;>
      simp [envBool, hcur, hv, hb] at hei <;>
      simp [hei, hcur]
  · intro v b hv hb
    by_cases hcur : c1.TracesExporterEndpointInsecure <;>
      simp [envBool, hcur, hv, hb] at hti <;>
      simp [hti, hcur]
  · intro v b hv hb
    by_cases hcur : c1.MetricsExporterEndpointInsecure <;>
      simp [envBool, hcur, hv, hb] at hmi <;>
      simp [hmi, hcur]
  · intro v b hv hb
    cases hcur : c1.TracesEnabled with
    | some x =>
      simp [envOptBool, hcur] at hten
      rw [← hten]
      simp [hcur]
    | none =>
      simp [envOptBool, hcur, hv, hb] at hten
      simp [hcur, hten]
  · intro v b hv hb
    cases hcur : c1.MetricsEnabled with
    | some x =>
      simp [envOptBool, hcur] at hmen
      rw [← hmen]
      simp [hcur]
    | none =>
      simp [envOptBool, hcur, hv, hb] at hmen
      simp [hcur, hmen]

/-- Witness for the amended C2 at concrete inputs: the overwrite-tagged traces
endpoint takes the environment value over the caller option, while the
untagged enabled flag keeps the caller's value. -/
theorem C2_env_overlay_amended_witness :
    (newConfig [] [WithTracesExporterEndpoint (gs "code-url"), WithTracesEnabled true]
        { tracesEndpoint := some (gs "env-url"), tracesEnabled := some (gs "false") }
        (gs "localhost")).map (fun c => (c.TracesExporterEndpoint, c.TracesEnabled))
      = some (gs "env-url", some true) := by
  have hok : newConfig [] [WithTracesExporterEndpoint (gs "code-url"), WithTracesEnabled true]
      { tracesEndpoint := some (gs "env-url"), tracesEnabled := some (gs "false") }
      (gs "localhost")
      = some ((newConfig [] [WithTracesExporterEndpoint (gs "code-url"), WithTracesEnabled true]
        { tracesEndpoint := some (gs "env-url"), tracesEnabled := some (gs "false") }
        (gs "localhost")).getD {}) := by decide
  have h := C2_env_overlay_amended [] [WithTracesExporterEndpoint (gs "code-url"), WithTracesEnabled true]
    { tracesEndpoint := some (gs "env-url"), tracesEnabled := some (gs "false") }
    (gs "localhost") _ hok
  have h1 := h.2.1 (gs "env-url") rfl
  have h2 := h.2.2.2.2.2.2.2.2.2.2.2.2.2.2.2.2.2.2.1 (gs "false") false rfl (by decide)
  rw [hok]
  simp only [Option.map_some']
  rw [h1, h2]
  decide

theorem lastLookup_append_some (pre suf : List Attrs) (k : GoStr) (v : GoStr)
    (h : lastLookup suf k = some v) : lastLookup (pre ++ suf) k = some v := by
  rw [lastLookup_append, h]
  rfl

theorem lastLookup_append_none (pre suf : List Attrs) (k : GoStr)
    (h1 : lastLookup pre k = none) (h2 : lastLookup suf k = none) :
    lastLookup (pre ++ suf) k = none := by
  rw [lastLookup_append, h2, h1]
  rfl

theorem lastLookup_singleton (l : Attrs) (k : GoStr) :
    lastLookup [l] k = goLookup l.reverse k := rfl

theorem lastLookup_eq_none_of_forall (ls : List Attrs) (k : GoStr)
    (h : ∀ l ∈ ls, goLookup l.reverse k = none) : lastLookup ls k = none := by
  induction ls with
  | nil => rfl
  | cons l rest ih =>
    rw [lastLookup, ih (fun m hm => h m (List.mem_cons_of_mem l hm)),
        h l (List.mem_cons_self l rest)]
    rfl

theorem goLookup_reverse_eq_none (l : Attrs) (k : GoStr) (h : k ∉ l.map Prod.fst) :
    goLookup l.reverse k = none := by
  rw [goLookup_eq_none_iff]
  simp only [List.map_reverse, List.mem_reverse]
  exact h

/-- C3 fails as stated: with OTEL_SERVICE_VERSION set ("9.9"), the
service-version detector that newResource appends after the environment layer
overrides the key service.version even when OTEL_RESOURCE_ATTRIBUTES sets it —
the resource maps service.version to "9.9", not to the environment-supplied
empty value. -/
theorem C3_resource_env_counterexample :
    goLookup (newResource ({ ResourceAttributes := [(gs "service.version", gs "2.0")] } : Config) [] (gs "hosty") [(gs "service.version", [])] (gs "9.9")) (gs "service.version") = some (gs "9.9")
    ∧ goLookup (newResource ({ ResourceAttributes := [(gs "service.version", gs "2.0")] } : Config) [] (gs "hosty") [(gs "service.version", [])] (gs "9.9")) (gs "service.version") ≠ some ([] : GoStr) := by
  refine ⟨by decide, by decide⟩

/-- C3 amended: for every key K that the parsed OTEL_RESOURCE_ATTRIBUTES map
sets, the built resource maps K to the environment value — even the empty
string, overriding any code-set value — except for K = service.version when
OTEL_SERVICE_VERSION is set non-blank, which the dedicated detector overrides;
and in the code resource-attributes step, entries with empty values are
dropped and contribute nothing: a key that only appears there with empty
values and is supplied by no later step is absent from the built resource. -/
theorem C3_resource_env_amended (c : Config) (optionAttrs : List Attrs) (hostName : GoStr)
    (envAttrs : Attrs) (envSv : GoStr) (K : GoStr)
    (hnd : (envAttrs.map Prod.fst).Nodup) :
    (∀ v, goLookup envAttrs K = some v →
      (K ≠ gs "service.version" ∨ goTrimSpace envSv = []) →
      goLookup (newResource c optionAttrs hostName envAttrs envSv) K = some v)
    ∧ ((∀ w, (K, w) ∈ c.ResourceAttributes → w = []) →
      K ∉ envAttrs.map Prod.fst →
      (∀ l ∈ optionAttrs, K ∉ l.map Prod.fst) →
      K ≠ gs "service.name" → K ≠ gs "service.version" → K ≠ gs "host.name" →
      K ≠ gs "telemetry.sdk.name" → K ≠ gs "telemetry.sdk.language" →
      K ≠ gs "telemetry.sdk.version" →
      goLookup (newResource c optionAttrs hostName envAttrs envSv) K = none) := by
  constructor
  · intro v hv hside
    rw [newResource, goLookup_mergeAttrs, newResourceContributions]
    rw [lastLookup_append, lastLookup_append, lastLookup_append, lastLookup_append,
        lastLookup_append, lastLookup_append, lastLookup_append]
    simp only [lastLookup_singleton]
    have henvL : goLookup envAttrs.reverse K = some v := by
      rw [goLookup_reverse_of_nodup envAttrs K hnd]
      exact hv
    have hsvcL : goLookup (if goTrimSpace envSv ≠ [] then
        [(gs "service.version", goTrimSpace envSv)] else []).reverse K = none := by
      rcases hside with hK | htr
      · split_ifs with h
        · simp [goLookup, Ne.symm hK]
        · rfl
      · rw [if_neg (by simp [htr])]
        rfl
    rw [hsvcL, henvL]
    rfl
  · intro hcode henv hopts hsn hsv hhost hsdk1 hsdk2 hsdk3
    rw [newResource, goLookup_mergeAttrs, newResourceContributions]
    rw [lastLookup_append, lastLookup_append, lastLookup_append, lastLookup_append,
        lastLookup_append, lastLookup_append, lastLookup_append]
    simp only [lastLookup_singleton]
    have hcodeL : goLookup (c.ResourceAttributes.filter (fun p => p.2.length > 0)).reverse K
        = none := by
      apply goLookup_reverse_eq_none
      intro hmem
      rcases List.mem_map.mp hmem with ⟨p, hp, hpk⟩
      rcases List.mem_filter.mp hp with ⟨hporig, hplen⟩
      have hw : p.2 = [] := by
        apply hcode p.2
        rw [← hpk, Prod.mk.eta]
        exact hporig
      simp [hw] at hplen
    have hoptsL : lastLookup optionAttrs K = none :=
      lastLookup_eq_none_of_forall _ _ (fun l hl => goLookup_reverse_eq_none l K (hopts l hl))
    have hS1 : lastLookup (if c.ServiceName ≠ [] then
        [[(gs "service.name", c.ServiceName)]] else []) K = none := by
      split_ifs with h
      · rw [lastLookup_singleton]
        simp [goLookup, Ne.symm hsn]
      · rfl
    have hS2 : lastLookup (if c.ServiceVersion ≠ [] then
        [[(gs "service.version", c.ServiceVersion)]] else []) K = none := by
      split_ifs with h
      · rw [lastLookup_singleton]
        simp [goLookup, Ne.symm hsv]
      · rfl
    have hhostL : goLookup ([(gs "host.name", hostName)] : Attrs).reverse K = none := by
      simp [goLookup, Ne.symm hhost]
    have hsdkL : goLookup ([(gs "telemetry.sdk.name", gs "otelconfig"),
        (gs "telemetry.sdk.language", gs "go"),
        (gs "telemetry.sdk.version", version)] : Attrs).reverse K = none := by
      simp [goLookup, Ne.symm hsdk1, Ne.symm hsdk2, Ne.symm hsdk3]
    have henvL : goLookup envAttrs.reverse K = none := goLookup_reverse_eq_none envAttrs K henv
    have hsvcL : goLookup (if goTrimSpace envSv ≠ [] then
        [(gs "service.version", goTrimSpace envSv)] else []).reverse K = none := by
      split_ifs with h
      · simp [goLookup, Ne.symm hsv]
      · rfl
    rw [hcodeL, hoptsL, hS1, hS2, hhostL, hsdkL, henvL, hsvcL]
    rfl

/-- Witness for the amended C3 at concrete inputs: the empty environment value
for resource.clobber overrides the non-empty code value, and a code attribute
with only an empty value is absent from the built resource. -/
theorem C3_resource_env_amended_witness :
    goLookup (newResource ({ ResourceAttributes := [(gs "resource.clobber", gs "CODE")] } : Config) [] (gs "hosty") [(gs "resource.clobber", [])] []) (gs "resource.clobber") = some []
    ∧ goLookup (newResource ({ ResourceAttributes := [(gs "dropped.attr", [])] } : Config) [] (gs "hosty") [] []) (gs "dropped.attr") = none := by
  constructor
  · exact (C3_resource_env_amended ({ ResourceAttributes := [(gs "resource.clobber", gs "CODE")] } : Config) [] (gs "hosty") [(gs "resource.clobber", [])] [] (gs "resource.clobber") (by decide)).1
      [] (by decide) (Or.inr (by decide))
  · exact (C3_resource_env_amended ({ ResourceAttributes := [(gs "dropped.attr", [])] } : Config) [] (gs "hosty") [] [] (gs "dropped.attr") (by decide)).2
      (by intro w hw; simp at hw; exact hw) (by decide) (by simp) (by decide) (by decide)
      (by decide) (by decide) (by decide) (by decide)

end OtelConfig
